import Mathlib

/-! Daisy Engine, the world streamer.

A shallow embedding of `Engine/Modules/WorldStreamer` (`WorldStreamer.h`,
`WorldStreamer.cpp`) and of the part of `Core/Math.h` it uses, followed by the
properties of the streamer that are checked against it.

Conventions of the embedding.

* A C++ `float` is an IEEE 754 binary32 number, held as the rational number it
  stands for.  Every float operation of the source (`+`, `-`, `*`, `/`, the
  conversion of an integer to `float`, a decimal literal such as `0.1f`) is the
  exact operation followed by the rounding `f32` to the nearest binary32 number,
  ties to even, with gradual underflow; each operation is rounded on its own, as
  the compiler does for x86-64 without fused multiply-add.  `std::sqrt` on a `float`
  is the correctly rounded root `sqrtF32`, and `std::floor` is exact.
* The embedding has no infinity, no NaN and no negative zero: a result of magnitude
  `2^128` or more is kept as the rounded finite number, so the embedding stands for
  the code as long as no operation overflows (coordinates and radii below `10^18`
  in magnitude are safe: the largest intermediate value is a sum of three squares).
* `uint64_t` is a natural number below `2^64`; `+`, `-` and `<<` wrap modulo `2^64`.
* `static_cast<uint64_t>(f)` truncates toward zero and then wraps modulo `2^64`
  (C++ leaves the conversion of a value outside the range undefined; the wrap is
  what the usual x86-64 conversion sequence produces for the values from `-2^63`
  up to `2^64`: a small negative value wraps, and `2^64` is converted to 0).
* `int` is an integer; no operation of the streamer overflows it.
* `std::unordered_map<uint64_t, std::unique_ptr<WorldChunk>>` is an association
  list; its iteration order, unspecified in C++, is the list order.
* A method of `WorldStreamer` is a function from the state before the call (and
  the arguments) to the state after it.
-/

namespace Daisy

/-! ## binary32 -/

/-- The number of halvings that bring `n` below 2: for a positive `n`, the floor of
its binary logarithm. -/
def log2Aux : Nat → Nat → Nat
  | 0, _ => 0
  | fuel + 1, n => if n < 2 then 0 else log2Aux fuel (n / 2) + 1

/-- The floor of the binary logarithm of a positive natural number. -/
def log2 (n : Nat) : Nat := log2Aux n n

/-- The power `2^k` for an integer exponent `k`. -/
def pow2 (k : Int) : ℚ :=
  if 0 ≤ k then ((2 ^ k.toNat : Nat) : ℚ) else 1 / ((2 ^ (-k).toNat : Nat) : ℚ)

/-- The binary exponent of a nonzero rational: the integer `e` with
`2^e ≤ |q| < 2^(e+1)`. -/
def exponent (q : ℚ) : Int :=
  let a : ℚ := if q < 0 then -q else q
  let e : Int := (log2 q.num.natAbs : Int) - (log2 q.den : Int)
  if pow2 e ≤ a then e else e - 1

/-- The integer nearest to `q`; of two integers at the same distance, the even one. -/
def roundEven (q : ℚ) : Int :=
  let f : Int := ⌊q⌋
  let r : ℚ := q - f
  if r < 1 / 2 then f
  else if 1 / 2 < r then f + 1
  else if f % 2 = 0 then f else f + 1

/-- The rounding of a real result to binary32: the nearest multiple of the unit in
the last place `2^k`, where `k` is 23 below the exponent of `q` (24 significant
bits) and at least -149 (the subnormal numbers); ties go to the even multiple. -/
def f32 (q : ℚ) : ℚ :=
  if q = 0 then 0
  else
    let k : Int := max (exponent q - 23) (-149)
    (roundEven (q / pow2 k) : ℚ) * pow2 k

/-- The integer square root, found bit by bit from bit `i - 1` down to bit 0. -/
def isqrtAux : Nat → Nat → Nat → Nat
  | 0, _, r => r
  | i + 1, n, r =>
    let c := r + 2 ^ i
    isqrtAux i n (if c * c ≤ n then c else r)

/-- The floor of the square root of a natural number. -/
def isqrt (n : Nat) : Nat := isqrtAux (log2 n / 2 + 1) n 0

/-- The function `std::sqrt` on a `float`: the binary32 number nearest to the root of
`s` (IEEE 754 requires the correctly rounded root).  The root lies in
`[2^(k+23), 2^(k+24))`; `m` is its integer part in units of `2^k`, and the result is
`m + 1` units when the root is beyond `m + 1/2` (a root of a binary32 number is never
exactly halfway).  The argument in the source is a sum of squares, never negative. -/
def sqrtF32 (s : ℚ) : ℚ :=
  if s ≤ 0 then 0
  else
    let k : Int := exponent s / 2 - 23
    let t : ℚ := s / pow2 (2 * k)
    let m : Nat := isqrt ⌊t⌋.toNat
    let h : ℚ := (m : ℚ) + 1 / 2
    if h * h < t then ((m + 1 : Nat) : ℚ) * pow2 k else (m : ℚ) * pow2 k

/-! ## Core/Math.h -/

/-- The struct `Vector3` of `Core/Math.h`. -/
structure Vector3 where
  x : ℚ
  y : ℚ
  z : ℚ
deriving DecidableEq

namespace Vector3

/-- The default constructor `Vector3()`. -/
def zero : Vector3 := ⟨0, 0, 0⟩

/-- The member `operator+`. -/
def add (a other : Vector3) : Vector3 :=
  ⟨f32 (a.x + other.x), f32 (a.y + other.y), f32 (a.z + other.z)⟩

/-- The member `operator-`. -/
def sub (a other : Vector3) : Vector3 :=
  ⟨f32 (a.x - other.x), f32 (a.y - other.y), f32 (a.z - other.z)⟩

/-- The member `operator*(float scalar)`. -/
def mul (a : Vector3) (scalar : ℚ) : Vector3 :=
  ⟨f32 (a.x * scalar), f32 (a.y * scalar), f32 (a.z * scalar)⟩

/-- The member `operator/(float scalar)`. -/
def div (a : Vector3) (scalar : ℚ) : Vector3 :=
  ⟨f32 (a.x / scalar), f32 (a.y / scalar), f32 (a.z / scalar)⟩

/-- The member `LengthSquared()`: the expression `x * x + y * y + z * z`, two
additions from the left, every product and sum rounded. -/
def LengthSquared (a : Vector3) : ℚ :=
  f32 (f32 (f32 (a.x * a.x) + f32 (a.y * a.y)) + f32 (a.z * a.z))

/-- The member `Length()`. -/
def Length (a : Vector3) : ℚ :=
  sqrtF32 (f32 (f32 (f32 (a.x * a.x) + f32 (a.y * a.y)) + f32 (a.z * a.z)))

/-- The member `Normalized()`. -/
def Normalized (a : Vector3) : Vector3 :=
  let len := a.Length
  if len > 0 then a.div len else zero

/-- The test `a.Length() <= r`. -/
def LengthLe (a : Vector3) (r : ℚ) : Bool := decide (a.Length ≤ r)

/-- The test `a.Length() > r`. -/
def LengthGt (a : Vector3) (r : ℚ) : Bool := decide (a.Length > r)

end Vector3

/-! ## WorldStreamer.h -/

/-- The struct `WorldChunk`. -/
structure WorldChunk where
  position : Vector3 := Vector3.zero
  size : Nat := 1000
  loaded : Bool := false
  generated : Bool := false
  renderObjects : List Nat := []
  physicsObjects : List Nat := []
  aiAgents : List Nat := []
  lastAccessTime : ℚ := 0
deriving DecidableEq

/-- The struct `StreamingSettings`. -/
structure StreamingSettings where
  loadRadius : ℚ := 5000
  unloadRadius : ℚ := 8000
  predictionRadius : ℚ := 10000
  maxConcurrentLoads : Int := 4
  enablePredictiveStreaming : Bool := true
  enableServerSideStreaming : Bool := true
deriving DecidableEq

/-- The data members of the class `WorldStreamer`, with `m_initialized` of its base
class `Module`. -/
structure WorldStreamer where
  m_initialized : Bool := false
  m_chunks : List (Nat × WorldChunk) := []
  m_observerPosition : Vector3 := ⟨0, 0, 0⟩
  m_lastObserverPosition : Vector3 := ⟨0, 0, 0⟩
  m_settings : StreamingSettings := {}
  m_infiniteWorldEnabled : Bool := true
  m_worldScale : ℚ := 1000000000000
  m_streamingUpdateTimer : ℚ := 0
  m_chunksToLoad : List Vector3 := []
  m_chunksToUnload : List Vector3 := []
  m_currentLoadingJobs : Int := 0
deriving DecidableEq

/-! ## The chunk map -/

/-- The call `m_chunks.find(key)`: the chunk stored under `key`, if any. -/
def mapFind (m : List (Nat × WorldChunk)) (key : Nat) : Option WorldChunk :=
  m.lookup key

/-- The call `m_chunks.erase(key)`. -/
def mapErase (m : List (Nat × WorldChunk)) (key : Nat) : List (Nat × WorldChunk) :=
  m.filter fun e => e.1 != key

/-- The assignment `m_chunks[key] = chunk`: replaces the chunk under `key`, or adds
the entry when the key is absent. -/
def mapSet (m : List (Nat × WorldChunk)) (key : Nat) (chunk : WorldChunk) :
    List (Nat × WorldChunk) :=
  if (m.lookup key).isSome then m.map fun e => if e.1 == key then (key, chunk) else e
  else m ++ [(key, chunk)]

/-! ## Conversions -/

/-- Truncation toward zero, the value of a float-to-integer conversion. -/
def truncQ (q : ℚ) : Int := if 0 ≤ q then ⌊q⌋ else ⌈q⌉

/-- The conversion `static_cast<uint64_t>(f)`. -/
def castU64 (f : ℚ) : Nat := (truncQ f % 2 ^ 64).toNat

/-- The conversion `static_cast<int>(f)`. -/
def castInt (f : ℚ) : Int := truncQ f

/-! ## WorldStreamer.cpp -/

/-- The method `WorldStreamer::WorldToChunkPosition`. -/
def WorldToChunkPosition (worldPos : Vector3) : Vector3 :=
  let chunkSize : ℚ := 1000
  ⟨f32 ((⌊f32 (worldPos.x / chunkSize)⌋ : ℤ) * chunkSize),
   f32 ((⌊f32 (worldPos.y / chunkSize)⌋ : ℤ) * chunkSize),
   f32 ((⌊f32 (worldPos.z / chunkSize)⌋ : ℤ) * chunkSize)⟩

/-- The method `WorldStreamer::ChunkPositionToKey`. -/
def ChunkPositionToKey (chunkPos : Vector3) : Nat :=
  let x : Nat := (castU64 (f32 (chunkPos.x / 1000)) + 1000000) % 2 ^ 64
  let y : Nat := (castU64 (f32 (chunkPos.y / 1000)) + 1000000) % 2 ^ 64
  let z : Nat := (castU64 (f32 (chunkPos.z / 1000)) + 1000000) % 2 ^ 64
  ((x <<< 32) % 2 ^ 64) ||| ((y <<< 16) % 2 ^ 64) ||| z

/-- The method `WorldStreamer::KeyToChunkPosition`.  In `x * 1000.0f` the 64-bit
integer `x` is first converted to `float`. -/
def KeyToChunkPosition (key : Nat) : Vector3 :=
  let x : Nat := (((key >>> 32) &&& 0xFFFFFFFF) + 2 ^ 64 - 1000000) % 2 ^ 64
  let y : Nat := (((key >>> 16) &&& 0xFFFF) + 2 ^ 64 - 1000000) % 2 ^ 64
  let z : Nat := ((key &&& 0xFFFF) + 2 ^ 64 - 1000000) % 2 ^ 64
  ⟨f32 (f32 (x : ℚ) * 1000), f32 (f32 (y : ℚ) * 1000), f32 (f32 (z : ℚ) * 1000)⟩

/-- The method `WorldStreamer::Initialize`. -/
def Initialize (s : WorldStreamer) : WorldStreamer × Bool :=
  ({ s with m_initialized := true }, true)

/-- The method `WorldStreamer::Shutdown`. -/
def Shutdown (s : WorldStreamer) : WorldStreamer :=
  if !s.m_initialized then s
  else { s with m_chunks := [], m_chunksToLoad := [], m_chunksToUnload := [],
                m_initialized := false }

/-- The method `WorldStreamer::SetObserverPosition`. -/
def SetObserverPosition (s : WorldStreamer) (position : Vector3) : WorldStreamer :=
  { s with m_lastObserverPosition := s.m_observerPosition, m_observerPosition := position }

/-- The method `WorldStreamer::SetStreamingSettings`. -/
def SetStreamingSettings (s : WorldStreamer) (settings : StreamingSettings) : WorldStreamer :=
  { s with m_settings := settings }

/-- The method `WorldStreamer::GetChunk`. -/
def GetChunk (s : WorldStreamer) (worldPosition : Vector3) : Option WorldChunk :=
  let chunkPos := WorldToChunkPosition worldPosition
  let key := ChunkPositionToKey chunkPos
  mapFind s.m_chunks key

/-- The method `WorldStreamer::GetLoadedChunks`. -/
def GetLoadedChunks (s : WorldStreamer) : List WorldChunk :=
  (s.m_chunks.filter fun e => e.2.loaded).map Prod.snd

/-- The method `WorldStreamer::GenerateChunk`, returning the chunk it updates. -/
def GenerateChunk (chunk : WorldChunk) : WorldChunk :=
  if chunk.generated then chunk else { chunk with generated := true }

/-- The method `WorldStreamer::LoadChunk`. -/
def LoadChunk (s : WorldStreamer) (chunkPosition : Vector3) : WorldStreamer :=
  let key := ChunkPositionToKey chunkPosition
  if (mapFind s.m_chunks key).isSome then s
  else if s.m_currentLoadingJobs ≥ s.m_settings.maxConcurrentLoads then
    { s with m_chunksToLoad := s.m_chunksToLoad ++ [chunkPosition] }
  else
    let chunk : WorldChunk := { position := chunkPosition, loaded := false }
    let chunk := GenerateChunk chunk
    let chunk := { chunk with loaded := true, lastAccessTime := 0 }
    { s with m_chunks := mapSet s.m_chunks key chunk,
             m_currentLoadingJobs := s.m_currentLoadingJobs + 1 }

/-- The method `WorldStreamer::UnloadChunk`. -/
def UnloadChunk (s : WorldStreamer) (chunkPosition : Vector3) : WorldStreamer :=
  let key := ChunkPositionToKey chunkPosition
  if (mapFind s.m_chunks key).isSome then
    { s with m_chunks := mapErase s.m_chunks key,
             m_currentLoadingJobs := max 0 (s.m_currentLoadingJobs - 1) }
  else s

/-- The values `-chunkRadius, ..., chunkRadius` of a loop variable of
`UpdateStreaming`, in order. -/
def offsetRange (chunkRadius : Int) : List Int :=
  (List.range (2 * chunkRadius + 1).toNat).map fun i => (i : Int) - chunkRadius

/-- The arguments of the calls `LoadChunk(chunkPos)` made by the three nested loops
of `UpdateStreaming`, in call order.  The loops read only the observer position and
the load radius, which `LoadChunk` does not change. -/
def loadRequests (observerPosition : Vector3) (loadRadius : ℚ) : List Vector3 :=
  let chunkRadius := castInt (f32 (loadRadius / 1000))
  (offsetRange chunkRadius).flatMap fun (x : Int) =>
    (offsetRange chunkRadius).flatMap fun (y : Int) =>
      (offsetRange chunkRadius).filterMap fun (z : Int) =>
        let chunkOffset : Vector3 :=
          ⟨f32 (f32 (x : ℚ) * 1000), f32 (f32 (y : ℚ) * 1000), f32 (f32 (z : ℚ) * 1000)⟩
        let chunkPos := WorldToChunkPosition (observerPosition.add chunkOffset)
        if (chunkPos.sub observerPosition).LengthLe loadRadius then some chunkPos else none

/-- The first half of `UpdateStreaming`: load the chunks within the load radius. -/
def loadPass (s : WorldStreamer) : WorldStreamer :=
  (loadRequests s.m_observerPosition s.m_settings.loadRadius).foldl LoadChunk s

/-- The local vector `chunksToUnload` that `UpdateStreaming` collects. -/
def chunksToUnload (s : WorldStreamer) : List Nat :=
  (s.m_chunks.filter fun e =>
    (e.2.position.sub s.m_observerPosition).LengthGt s.m_settings.unloadRadius).map Prod.fst

/-- The second half of `UpdateStreaming`: unload the chunks outside the unload
radius. -/
def unloadPass (s : WorldStreamer) : WorldStreamer :=
  (chunksToUnload s).foldl (fun st key => UnloadChunk st (KeyToChunkPosition key)) s

/-- The method `WorldStreamer::UpdateStreaming`. -/
def UpdateStreaming (s : WorldStreamer) : WorldStreamer :=
  unloadPass (loadPass s)

/-- The method `WorldStreamer::PredictiveLoading`. -/
def PredictiveLoading (s : WorldStreamer) : WorldStreamer :=
  let velocity := s.m_observerPosition.sub s.m_lastObserverPosition
  if velocity.LengthSquared > 0 then
    let predictedPosition :=
      s.m_observerPosition.add (velocity.Normalized.mul s.m_settings.predictionRadius)
    let predictedChunk := WorldToChunkPosition predictedPosition
    LoadChunk s predictedChunk
  else s

/-- The method `WorldStreamer::CleanupUnusedChunks`. -/
def CleanupUnusedChunks (s : WorldStreamer) : WorldStreamer :=
  let chunksToCleanup := (s.m_chunks.filter fun e => e.2.lastAccessTime > 300).map Prod.fst
  { s with m_chunks := chunksToCleanup.foldl mapErase s.m_chunks }

/-- The assignment `m_streamingUpdateTimer = t`. -/
def setTimer (s : WorldStreamer) (t : ℚ) : WorldStreamer :=
  { s with m_streamingUpdateTimer := t }

/-- The three passes that `Update` runs when the timer has reached the tick period,
in the order of the source. -/
def streamingPasses (s : WorldStreamer) : WorldStreamer :=
  let s := UpdateStreaming s
  let s := if s.m_settings.enablePredictiveStreaming then PredictiveLoading s else s
  CleanupUnusedChunks s

/-- The literal `0.1f`: the binary32 number nearest to 1/10, which is
13421773/134217728, a little above 1/10. -/
def tickPeriod : ℚ := f32 (1 / 10)

/-- The method `WorldStreamer::Update`. -/
def Update (s : WorldStreamer) (deltaTime : ℚ) : WorldStreamer :=
  if !s.m_initialized then s
  else
    let s := setTimer s (f32 (s.m_streamingUpdateTimer + deltaTime))
    if s.m_streamingUpdateTimer ≥ tickPeriod then
      setTimer (streamingPasses s) 0
    else s

/-! ## Sequences of calls -/

/-- A call of a public method of `WorldStreamer` that changes the state. -/
inductive Call where
  | Initialize
  | Update (deltaTime : ℚ)
  | Shutdown
  | SetObserverPosition (position : Vector3)
  | SetStreamingSettings (settings : StreamingSettings)
  | LoadChunk (chunkPosition : Vector3)
  | UnloadChunk (chunkPosition : Vector3)

/-- The state after one call. -/
def Call.apply (s : WorldStreamer) : Call → WorldStreamer
  | .Initialize => (Daisy.Initialize s).1
  | .Update deltaTime => Daisy.Update s deltaTime
  | .Shutdown => Daisy.Shutdown s
  | .SetObserverPosition position => Daisy.SetObserverPosition s position
  | .SetStreamingSettings settings => Daisy.SetStreamingSettings s settings
  | .LoadChunk chunkPosition => Daisy.LoadChunk s chunkPosition
  | .UnloadChunk chunkPosition => Daisy.UnloadChunk s chunkPosition

/-- The state after a sequence of calls, made in list order. -/
def run (s : WorldStreamer) (calls : List Call) : WorldStreamer :=
  calls.foldl Call.apply s

/-- The calls `Update`, `LoadChunk`, `UnloadChunk` and `SetObserverPosition`. -/
def Call.isStreamingCall : Call → Bool
  | .Update _ => true
  | .LoadChunk _ => true
  | .UnloadChunk _ => true
  | .SetObserverPosition _ => true
  | _ => false

/-- A freshly constructed streamer that was given `settings` and initialised. -/
def freshStreamer (settings : StreamingSettings) : WorldStreamer :=
  (Initialize (SetStreamingSettings {} settings)).1

/-- One tick: the call `Update(0.1f)`, whose `deltaTime` is the tick period, so that
the streaming pass runs when the timer was at 0. -/
def tick (s : WorldStreamer) : WorldStreamer := Update s tickPeriod

/-- The state after `n` ticks. -/
def ticks : Nat → WorldStreamer → WorldStreamer
  | 0, s => s
  | n + 1, s => ticks n (tick s)

/-- The settings of the examples: load radius 1500 and the budget 4 (the other
fields keep their defaults: unload radius 8000, prediction enabled). -/
def budgetFourSettings : StreamingSettings := { loadRadius := 1500, maxConcurrentLoads := 4 }

/-- A sequence of calls that requests more chunks than the budget 4 allows. -/
def budgetFourCalls : List Call :=
  [.SetObserverPosition ⟨0, 0, 0⟩, .Update tickPeriod, .LoadChunk ⟨5000, 0, 0⟩,
   .UnloadChunk ⟨-1000, 0, 0⟩, .Update tickPeriod]

/-- A state in which the chunks of (0,0,0) and (16000,0,0) are resident; the observer
is at (0,0,0) and the unload radius is 8000. -/
def twoResidentChunks : WorldStreamer :=
  LoadChunk (LoadChunk (freshStreamer {}) ⟨0, 0, 0⟩) ⟨16000, 0, 0⟩

/-- The state `s` with the requests `q` put in front of its pending queue. -/
def addPending (q : List Vector3) (s : WorldStreamer) : WorldStreamer :=
  { s with m_chunksToLoad := q ++ s.m_chunksToLoad }

/-- A resident chunk as `LoadChunk` stores it. -/
def loadedChunk (position : Vector3) : WorldChunk :=
  { position := position, loaded := true, generated := true, lastAccessTime := 0 }

/-- The chunks of the first four candidates around (0,0,0), under their keys. -/
def firstFourChunks : List (Nat × WorldChunk) :=
  [(4294964112474688, loadedChunk ⟨-1000, -1000, 0⟩),
   (4294964113523263, loadedChunk ⟨-1000, 0, -1000⟩),
   (4294964113523264, loadedChunk ⟨-1000, 0, 0⟩),
   (4294964113523265, loadedChunk ⟨-1000, 0, 1000⟩)]

/-- An initialised streamer with the settings `budgetFourSettings`, the observer at
rest at (0,0,0), the four chunks `firstFourChunks` resident, the in-flight counter at
4 and an empty pending queue. -/
def budgetFourFull : WorldStreamer :=
  { m_initialized := true, m_chunks := firstFourChunks, m_settings := budgetFourSettings,
    m_currentLoadingJobs := 4 }

/-- The requests that a tick of `budgetFourFull` puts on the pending queue. -/
def queuedEachTick : List Vector3 :=
  [⟨0, -1000, -1000⟩, ⟨0, -1000, 0⟩, ⟨0, -1000, 1000⟩, ⟨0, 0, -1000⟩, ⟨0, 0, 0⟩, ⟨0, 0, 1000⟩,
   ⟨0, 1000, -1000⟩, ⟨0, 1000, 0⟩, ⟨0, 1000, 1000⟩, ⟨1000, -1000, 0⟩, ⟨1000, 0, -1000⟩,
   ⟨1000, 0, 0⟩, ⟨1000, 0, 1000⟩, ⟨1000, 1000, 0⟩]

/-- The settings with load radius 1500 and a budget of 19 loads, one for each
candidate around an observer at (0,0,0). -/
def budgetNineteenSettings : StreamingSettings :=
  { loadRadius := 1500, maxConcurrentLoads := 19 }

/-- What a streaming pass reads and no pass writes: the settings and the current and
previous observer positions. -/
def WorldStreamer.inputs (s : WorldStreamer) : StreamingSettings × Vector3 × Vector3 :=
  (s.m_settings, s.m_observerPosition, s.m_lastObserverPosition)

/-- Every chunk of the map is stored under the key of its own stored position. -/
def KeysMatch (m : List (Nat × WorldChunk)) : Prop :=
  ∀ e ∈ m, ChunkPositionToKey e.2.position = e.1

/-- The in-flight counter is between 0 and the budget `m` of the settings. -/
def JobsWithinBudget (m : Int) (s : WorldStreamer) : Prop :=
  s.m_settings.maxConcurrentLoads = m ∧ 0 ≤ s.m_currentLoadingJobs ∧ s.m_currentLoadingJobs ≤ m

/-- A chunk origin whose grid coordinate `2^32` on the x axis is beyond the 32 bits
that the key keeps for x, far outside the bias of 1,000,000. -/
def farOrigin : Vector3 := ⟨4294967296000, 0, 0⟩

/-- A fresh streamer after `LoadChunk((0,0,0))`. -/
def originResident : WorldStreamer := LoadChunk (freshStreamer {}) ⟨0, 0, 0⟩

/-- The local `velocity` of `PredictiveLoading`: the displacement of the observer
since the previous position. -/
def observerVelocity (s : WorldStreamer) : Vector3 :=
  s.m_observerPosition.sub s.m_lastObserverPosition

/-- The local `predictedPosition` of `PredictiveLoading`. -/
def predictedPosition (s : WorldStreamer) : Vector3 :=
  s.m_observerPosition.add ((observerVelocity s).Normalized.mul s.m_settings.predictionRadius)

/-- A state with two loaded chunks next to the observer at (0,0,0), one with
`lastAccessTime = 301` and one with `lastAccessTime = 299`. -/
def staleExample : WorldStreamer :=
  { m_initialized := true,
    m_chunks :=
      [(4295032833000000, { loadedChunk ⟨0, 0, 0⟩ with lastAccessTime := 301 }),
       (4295032833000001, { loadedChunk ⟨0, 0, 1000⟩ with lastAccessTime := 299 })],
    m_currentLoadingJobs := 2 }

/-- A streamer with the budget 4 that ran one tick (four loads, counter 4), then an
`Update` of 0.0625 s, was shut down and initialised again. -/
def reinitialisedStreamer : WorldStreamer :=
  (Initialize (Shutdown (Update (tick (freshStreamer budgetFourSettings)) (1 / 16)))).1

/-- Every call except `SetStreamingSettings`: the calls that leave the settings as
they are. -/
def Call.keepsSettings : Call → Bool
  | .SetStreamingSettings _ => false
  | _ => true

/-- The store holds at most as many chunks as the in-flight counter says, and the
counter is at most the budget `m` of the settings. -/
def ResidencyCapped (m : Int) (s : WorldStreamer) : Prop :=
  s.m_settings.maxConcurrentLoads = m ∧
  (s.m_chunks.length : Int) ≤ s.m_currentLoadingJobs ∧
  s.m_currentLoadingJobs ≤ m

/-- Every chunk of the map is as `LoadChunk` stored it: access time 0, loaded and
generated. -/
def StampedAtLoad (m : List (Nat × WorldChunk)) : Prop :=
  ∀ e ∈ m, e.2.lastAccessTime = 0 ∧ e.2.loaded = true ∧ e.2.generated = true

/-- A sequence of calls with a shutdown and a second initialisation in it. -/
def lifecycleCalls : List Call :=
  [.Initialize, .Update tickPeriod, .LoadChunk ⟨5000, 0, 0⟩, .UnloadChunk ⟨-1000, 0, 0⟩,
   .SetObserverPosition ⟨100, 0, 0⟩, .Update tickPeriod, .Shutdown, .Initialize,
   .LoadChunk ⟨0, 0, 0⟩]

/-- A state in which the chunks of (0,0,0) and (0,0,9000) are resident; the observer
is at (0,0,0), the load radius is 0 (the main pass requests the observer's own chunk
only) and the unload radius is 8000. -/
def nearAndFarChunks : WorldStreamer :=
  LoadChunk (LoadChunk (freshStreamer { loadRadius := 0 }) ⟨0, 0, 0⟩) ⟨0, 0, 9000⟩

/-- A streamer with load radius 0 after ten calls `Update(0.1f)`: one second after
its initialisation. -/
def oneSecondLater : WorldStreamer := ticks 10 (freshStreamer { loadRadius := 0 })

/-- A streamer with the budget 4, `loadRadius = 1500` and `predictionRadius = 500`
whose observer moved from (0,0,0) to (100,0,0). -/
def movingBudgetFour : WorldStreamer :=
  SetObserverPosition
    (freshStreamer { loadRadius := 1500, predictionRadius := 500, maxConcurrentLoads := 4 })
    ⟨100, 0, 0⟩

/-- The initialised state with the chunk of (0,0,0) resident whose timer holds
13421772/134217728, the binary32 number just below `0.1f`. -/
def timerBelowPeriod : WorldStreamer := setTimer originResident (13421772 / 134217728)

/-- A state in which the chunks of (0,0,0) and of its neighbour (0,0,1000) are
resident; the observer is at (0,0,0), the load radius is 0 and the unload radius is
500. -/
def adjacentChunks : WorldStreamer :=
  LoadChunk
    (LoadChunk (freshStreamer { loadRadius := 0, unloadRadius := 500 }) ⟨0, 0, 0⟩)
    ⟨0, 0, 1000⟩

/-! ## Rounding to binary32 -/

theorem f32_zero : f32 0 = 0 := rfl

/-- The literal `0.1f` is 13421773/134217728, which is above 1/10. -/
theorem tickPeriod_eq : tickPeriod = 13421773 / 134217728 ∧ (1 : ℚ) / 10 < tickPeriod := by
  decide!

/-- Some values of the rounding: 1000 and 0.0625 are binary32 numbers, 1/10 and
`2^64 - 1000000` are not, a result below half of the smallest subnormal number
`2^(-149)` is rounded to 0, and 134219000, halfway between two binary32 numbers, goes
to the even one. -/
theorem f32_examples :
    f32 1000 = 1000 ∧ f32 (1 / 16) = 1 / 16 ∧ f32 (1 / 10) ≠ 1 / 10 ∧
    f32 (18446744073709551616 - 1000000) = 18446744073709551616 ∧
    f32 (pow2 (-80) * pow2 (-80)) = 0 ∧
    f32 134219000 = 134219008 := by
  decide!

/-- Some values of the square root: exact at a square, rounded elsewhere. -/
theorem sqrtF32_examples :
    sqrtF32 10000 = 100 ∧ sqrtF32 2 = 11863283 / 8388608 ∧
    sqrtF32 2000000 = 5792619 / 4096 ∧ sqrtF32 0 = 0 := by
  decide!

theorem pow2_pos (k : Int) : 0 < pow2 k := by
  unfold pow2
  split_ifs
  · positivity
  · positivity

/-- The function `pow2` is the power of 2 with an integer exponent. -/
theorem pow2_eq_zpow (k : Int) : pow2 k = (2 : ℚ) ^ k := by
  unfold pow2
  split_ifs with h
  · obtain ⟨n, rfl⟩ := Int.eq_ofNat_of_zero_le h
    simp
  · obtain ⟨n, rfl⟩ : ∃ n : ℕ, k = -(n : ℤ) := ⟨(-k).toNat, by omega⟩
    simp [zpow_neg]

theorem log2Aux_spec : ∀ (fuel n : Nat), n ≤ fuel → 0 < n →
    2 ^ log2Aux fuel n ≤ n ∧ n < 2 ^ (log2Aux fuel n + 1) := by
  intro fuel
  induction fuel with
  | zero => intro n h1 h2; omega
  | succ f ih =>
    intro n h1 h2
    unfold log2Aux
    split_ifs with hlt
    · have : n = 1 := by omega
      subst this
      simp
    · have hdiv : n / 2 ≤ f := by omega
      have hpos : 0 < n / 2 := by omega
      obtain ⟨hlo, hhi⟩ := ih (n / 2) hdiv hpos
      rw [pow_succ] at hhi ⊢
      rw [pow_succ]
      constructor <;> omega

/-- The function `log2` is the floor of the binary logarithm. -/
theorem log2_spec (n : Nat) (h : 0 < n) : 2 ^ log2 n ≤ n ∧ n < 2 ^ (log2 n + 1) :=
  log2Aux_spec n n (le_refl _) h

/-- The function `exponent` gives the binary exponent: `2^e ≤ |q| < 2^(e+1)`. -/
theorem exponent_spec (q : ℚ) (hq : q ≠ 0) :
    (2 : ℚ) ^ exponent q ≤ |q| ∧ |q| < (2 : ℚ) ^ (exponent q + 1) := by
  have hnum : q.num ≠ 0 := Rat.num_ne_zero.mpr hq
  have hn := log2_spec q.num.natAbs (Int.natAbs_pos.mpr hnum)
  have hd := log2_spec q.den q.den_pos
  have habs : |q| = (q.num.natAbs : ℚ) / (q.den : ℚ) := by
    have h1 : |(q.num : ℚ)| = (q.num.natAbs : ℚ) := by
      rw [← Int.cast_abs, Int.abs_eq_natAbs, Int.cast_natCast]
    conv_lhs => rw [← Rat.num_div_den q]
    rw [abs_div, Nat.abs_cast, h1]
  have ha : (if q < 0 then -q else q) = |q| := by
    split_ifs with h
    · exact (abs_of_neg h).symm
    · exact (abs_of_nonneg (not_lt.mp h)).symm
  have hden : (0 : ℚ) < q.den := by exact_mod_cast q.den_pos
  have two_pos : (0 : ℚ) < 2 := by norm_num
  -- the bounds of numerator and denominator as rationals
  have hn1 : (2 : ℚ) ^ (log2 q.num.natAbs : ℤ) ≤ (q.num.natAbs : ℚ) := by
    rw [zpow_natCast]; exact_mod_cast hn.1
  have hn2 : (q.num.natAbs : ℚ) < (2 : ℚ) ^ ((log2 q.num.natAbs : ℤ) + 1) := by
    have : (q.num.natAbs : ℚ) < (2 : ℚ) ^ (log2 q.num.natAbs + 1) := by exact_mod_cast hn.2
    rwa [← zpow_natCast, Nat.cast_add, Nat.cast_one] at this
  have hd1 : (2 : ℚ) ^ (log2 q.den : ℤ) ≤ (q.den : ℚ) := by
    rw [zpow_natCast]; exact_mod_cast hd.1
  have hd2 : (q.den : ℚ) < (2 : ℚ) ^ ((log2 q.den : ℤ) + 1) := by
    have : (q.den : ℚ) < (2 : ℚ) ^ (log2 q.den + 1) := by exact_mod_cast hd.2
    rwa [← zpow_natCast, Nat.cast_add, Nat.cast_one] at this
  set a : ℤ := (log2 q.num.natAbs : ℤ) with ha_def
  set b : ℤ := (log2 q.den : ℤ) with hb_def
  have hlow : (2 : ℚ) ^ (a - b - 1) < |q| := by
    rw [habs, lt_div_iff₀ hden]
    calc (2 : ℚ) ^ (a - b - 1) * (q.den : ℚ)
        < (2 : ℚ) ^ (a - b - 1) * (2 : ℚ) ^ (b + 1) :=
          mul_lt_mul_of_pos_left hd2 (zpow_pos two_pos _)
      _ = (2 : ℚ) ^ a := by rw [← zpow_add₀ (by norm_num : (2 : ℚ) ≠ 0)]; congr 1; ring
      _ ≤ (q.num.natAbs : ℚ) := hn1
  have hhigh : |q| < (2 : ℚ) ^ (a - b + 1) := by
    rw [habs, div_lt_iff₀ hden]
    calc (q.num.natAbs : ℚ) < (2 : ℚ) ^ (a + 1) := hn2
      _ = (2 : ℚ) ^ (a - b + 1) * (2 : ℚ) ^ b := by
          rw [← zpow_add₀ (by norm_num : (2 : ℚ) ≠ 0)]; congr 1; ring
      _ ≤ (2 : ℚ) ^ (a - b + 1) * (q.den : ℚ) :=
          mul_le_mul_of_nonneg_left hd1 (le_of_lt (zpow_pos two_pos _))
  unfold exponent
  dsimp only
  rw [ha, pow2_eq_zpow]
  split_ifs with hle
  · exact ⟨hle, hhigh⟩
  · refine ⟨le_of_lt hlow, ?_⟩
    have : a - b - 1 + 1 = a - b := by ring
    rw [this]
    exact not_le.mp hle

/-- The value of `roundEven` is within 1/2 of its argument. -/
theorem roundEven_spec (t : ℚ) : |(roundEven t : ℚ) - t| ≤ 1 / 2 := by
  have h1 := Int.floor_le t
  have h2 := Int.lt_floor_add_one t
  unfold roundEven
  dsimp only
  rw [abs_le]
  split_ifs with ha hb hc
  · constructor <;> linarith
  · push_cast
    constructor <;> linarith
  · constructor <;> linarith
  · push_cast
    constructor <;> linarith

theorem roundEven_le (t : ℚ) (N : ℤ) (h : t ≤ N) : roundEven t ≤ N := by
  have hf : ⌊t⌋ ≤ N := Int.floor_le_iff.mpr (lt_of_le_of_lt h (by norm_num))
  have h1 := Int.floor_le t
  unfold roundEven
  dsimp only
  split_ifs with ha hb hc
  · exact hf
  · by_contra hcon
    have hfN : ⌊t⌋ = N := by omega
    rw [hfN] at hb
    linarith
  · exact hf
  · by_contra hcon
    have hfN : ⌊t⌋ = N := by omega
    rw [hfN] at ha
    linarith

theorem le_roundEven (t : ℚ) (N : ℤ) (h : (N : ℚ) ≤ t) : N ≤ roundEven t := by
  have hf : N ≤ ⌊t⌋ := Int.le_floor.mpr h
  unfold roundEven
  dsimp only
  split_ifs <;> omega

/-- A value of `f32` is a number of binary32: an integer of at most 24 bits (or
`2^24` itself, the next power of two) times a power of two with an exponent of at
least -149. -/
theorem f32_significand (q : ℚ) :
    ∃ (m k : ℤ), f32 q = (m : ℚ) * pow2 k ∧ |m| ≤ 2 ^ 24 ∧ -149 ≤ k := by
  by_cases hq : q = 0
  · exact ⟨0, 0, by rw [hq]; simp [f32_zero], by norm_num, by norm_num⟩
  · obtain ⟨_, hhi⟩ := exponent_spec q hq
    have two_gt : (1 : ℚ) < 2 := by norm_num
    have two_ne : (2 : ℚ) ≠ 0 := by norm_num
    refine ⟨roundEven (q / pow2 (max (exponent q - 23) (-149))),
      max (exponent q - 23) (-149), ?_, ?_, le_max_right _ _⟩
    · unfold f32
      dsimp only
      rw [if_neg hq]
    · set k : ℤ := max (exponent q - 23) (-149) with hk_def
      have hk : 0 < pow2 k := pow2_pos k
      have hke : exponent q + 1 ≤ k + 24 := by
        have := le_max_left (exponent q - 23) (-149)
        omega
      have hbound : |q| / pow2 k ≤ ((2 ^ 24 : ℤ) : ℚ) := by
        rw [div_le_iff₀ hk, pow2_eq_zpow]
        have h24 : (((2 : ℤ) ^ 24 : ℤ) : ℚ) = (2 : ℚ) ^ (24 : ℤ) := by norm_num
        rw [h24, ← zpow_add₀ two_ne]
        exact le_trans (le_of_lt hhi) (zpow_le_zpow_right₀ (le_of_lt two_gt) (by omega))
      have habs : |q / pow2 k| = |q| / pow2 k := by rw [abs_div, abs_of_pos hk]
      have h1 : q / pow2 k ≤ ((2 ^ 24 : ℤ) : ℚ) :=
        le_trans (le_abs_self _) (by rw [habs]; exact hbound)
      have h2 : ((-(2 ^ 24) : ℤ) : ℚ) ≤ q / pow2 k := by
        have := neg_abs_le (q / pow2 k)
        rw [habs] at this
        push_cast
        push_cast at hbound
        linarith
      rw [abs_le]
      exact ⟨le_roundEven _ _ h2, roundEven_le _ _ h1⟩

/-- The rounding error of `f32` is at most half a unit in the last place. -/
theorem f32_error (q : ℚ) :
    |f32 q - q| ≤ pow2 (max (exponent q - 23) (-149)) / 2 := by
  unfold f32
  dsimp only
  split_ifs with h0
  · rw [h0, sub_zero, abs_zero]
    exact le_of_lt (div_pos (pow2_pos _) (by norm_num))
  · set k : ℤ := max (exponent q - 23) (-149)
    have hk := pow2_pos k
    have hr := roundEven_spec (q / pow2 k)
    have heq : (roundEven (q / pow2 k) : ℚ) * pow2 k - q
        = ((roundEven (q / pow2 k) : ℚ) - q / pow2 k) * pow2 k := by
      field_simp
    rw [heq, abs_mul, abs_of_pos hk]
    calc |(roundEven (q / pow2 k) : ℚ) - q / pow2 k| * pow2 k ≤ 1 / 2 * pow2 k :=
          mul_le_mul_of_nonneg_right hr (le_of_lt hk)
      _ = pow2 k / 2 := by ring

theorem isqrtAux_spec : ∀ (i n r : Nat), r * r ≤ n → n < (r + 2 ^ i) * (r + 2 ^ i) →
    isqrtAux i n r * isqrtAux i n r ≤ n ∧ n < (isqrtAux i n r + 1) * (isqrtAux i n r + 1) := by
  intro i
  induction i with
  | zero =>
    intro n r h1 h2
    unfold isqrtAux
    simpa using ⟨h1, h2⟩
  | succ i ih =>
    intro n r h1 h2
    unfold isqrtAux
    dsimp only
    have hpow : 2 ^ (i + 1) = 2 ^ i + 2 ^ i := by rw [pow_succ]; ring
    rw [hpow] at h2
    split_ifs with hc
    · exact ih n (r + 2 ^ i) hc (by rw [add_assoc]; exact h2)
    · exact ih n r h1 (not_le.mp hc)

/-- The function `isqrt` is the floor of the square root. -/
theorem isqrt_spec (n : Nat) : isqrt n * isqrt n ≤ n ∧ n < (isqrt n + 1) * (isqrt n + 1) := by
  unfold isqrt
  apply isqrtAux_spec
  · exact Nat.zero_le _
  · rw [Nat.zero_add, ← pow_add]
    by_cases hn : n = 0
    · subst hn
      positivity
    · have h := (log2_spec n (Nat.pos_of_ne_zero hn)).2
      exact lt_of_lt_of_le h (Nat.pow_le_pow_right (by norm_num) (by omega))

/-- The value of `sqrtF32` is the correctly rounded root: with `u` the unit in the last
place of the root, the value is between `2^23` and `2^24` units, and the root of `s`
is within half a unit of it. -/
theorem sqrtF32_spec (s : ℚ) (hs : 0 < s) :
    pow2 23 * pow2 (exponent s / 2 - 23) ≤ sqrtF32 s ∧
    sqrtF32 s ≤ pow2 24 * pow2 (exponent s / 2 - 23) ∧
    (sqrtF32 s - pow2 (exponent s / 2 - 23) / 2) ^ 2 ≤ s ∧
    s ≤ (sqrtF32 s + pow2 (exponent s / 2 - 23) / 2) ^ 2 := by
  have hq : s ≠ 0 := ne_of_gt hs
  obtain ⟨hlo, hhi⟩ := exponent_spec s hq
  rw [abs_of_pos hs] at hlo hhi
  have two_gt : (1 : ℚ) < 2 := by norm_num
  have two_ne : (2 : ℚ) ≠ 0 := by norm_num
  unfold sqrtF32
  dsimp only
  rw [if_neg (not_le.mpr hs)]
  set k : ℤ := exponent s / 2 - 23 with hk_def
  set u : ℚ := pow2 k with hu_def
  have hu : 0 < u := pow2_pos k
  have h2k : pow2 (2 * k) = u * u := by
    rw [hu_def, pow2_eq_zpow, pow2_eq_zpow, ← zpow_add₀ two_ne]
    congr 1
    ring
  rw [h2k]
  set t : ℚ := s / (u * u) with ht_def
  have huu : 0 < u * u := mul_pos hu hu
  have hst : s = t * (u * u) := by
    rw [ht_def]
    field_simp
  have hk1 : 2 * k + 46 ≤ exponent s := by omega
  have hk2 : exponent s + 1 ≤ 2 * k + 48 := by omega
  have ht1 : (2 : ℚ) ^ (46 : ℤ) ≤ t := by
    rw [ht_def, le_div_iff₀ huu, ← h2k, pow2_eq_zpow, ← zpow_add₀ two_ne]
    exact le_trans (zpow_le_zpow_right₀ (le_of_lt two_gt) (by omega)) hlo
  have ht2 : t < (2 : ℚ) ^ (48 : ℤ) := by
    rw [ht_def, div_lt_iff₀ huu, ← h2k, pow2_eq_zpow, ← zpow_add₀ two_ne]
    exact lt_of_lt_of_le hhi (zpow_le_zpow_right₀ (le_of_lt two_gt) (by omega))
  have ht0 : 0 ≤ t := le_trans (by positivity) ht1
  -- the integer part of `t` and its root
  set n : ℕ := ⌊t⌋.toNat with hn_def
  have hfloor : (0 : ℤ) ≤ ⌊t⌋ := Int.floor_nonneg.mpr ht0
  have hn1 : (n : ℚ) ≤ t := by
    have h := Int.floor_le t
    have hcast : ((n : ℤ) : ℚ) = ((⌊t⌋ : ℤ) : ℚ) := by
      rw [hn_def, Int.toNat_of_nonneg hfloor]
    have : (n : ℚ) = ((⌊t⌋ : ℤ) : ℚ) := by rw [← hcast]; norm_cast
    rw [this]
    exact h
  have hn2 : t < (n : ℚ) + 1 := by
    have h := Int.lt_floor_add_one t
    have hcast : ((n : ℤ) : ℚ) = ((⌊t⌋ : ℤ) : ℚ) := by
      rw [hn_def, Int.toNat_of_nonneg hfloor]
    have : (n : ℚ) = ((⌊t⌋ : ℤ) : ℚ) := by rw [← hcast]; norm_cast
    rw [this]
    exact h
  obtain ⟨hm1, hm2⟩ := isqrt_spec n
  set m : ℕ := isqrt n with hm_def
  have hM1 : (m : ℚ) * (m : ℚ) ≤ t := by
    have : ((m * m : ℕ) : ℚ) ≤ (n : ℚ) := by exact_mod_cast hm1
    push_cast at this
    exact le_trans this hn1
  have hM2 : t < ((m : ℚ) + 1) * ((m : ℚ) + 1) := by
    have h : n + 1 ≤ (m + 1) * (m + 1) := hm2
    have : ((n + 1 : ℕ) : ℚ) ≤ (((m + 1) * (m + 1) : ℕ) : ℚ) := by exact_mod_cast h
    push_cast at this
    exact lt_of_lt_of_le hn2 this
  have hM0 : (0 : ℚ) ≤ (m : ℚ) := Nat.cast_nonneg _
  have h23 : (2 : ℚ) ^ (23 : ℤ) ≤ (m : ℚ) := by
    by_contra hcon
    push_neg at hcon
    have hnat : m < 2 ^ 23 := by
      have : (m : ℚ) < ((2 ^ 23 : ℕ) : ℚ) := by
        rw [zpow_ofNat] at hcon; exact_mod_cast hcon
      exact_mod_cast this
    have hle : (m : ℚ) + 1 ≤ (2 : ℚ) ^ (23 : ℤ) := by
      have : ((m + 1 : ℕ) : ℚ) ≤ ((2 ^ 23 : ℕ) : ℚ) := by exact_mod_cast hnat
      rw [zpow_ofNat]; exact_mod_cast this
    have hsq : ((m : ℚ) + 1) * ((m : ℚ) + 1) ≤ (2 : ℚ) ^ (46 : ℤ) := by
      have h46 : (2 : ℚ) ^ (46 : ℤ) = (2 : ℚ) ^ (23 : ℤ) * (2 : ℚ) ^ (23 : ℤ) := by
        rw [← zpow_add₀ two_ne]; norm_num
      rw [h46]
      exact mul_le_mul hle hle (by linarith) (by positivity)
    linarith
  have h24 : (m : ℚ) < (2 : ℚ) ^ (24 : ℤ) := by
    by_contra hcon
    push_neg at hcon
    have hsq : (2 : ℚ) ^ (48 : ℤ) ≤ (m : ℚ) * (m : ℚ) := by
      have h48 : (2 : ℚ) ^ (48 : ℤ) = (2 : ℚ) ^ (24 : ℤ) * (2 : ℚ) ^ (24 : ℤ) := by
        rw [← zpow_add₀ two_ne]; norm_num
      rw [h48]
      exact mul_le_mul hcon hcon (by positivity) hM0
    linarith
  have hM1' : (1 : ℚ) ≤ (m : ℚ) := le_trans (by norm_num) h23
  have h24' : (m : ℚ) + 1 ≤ (2 : ℚ) ^ (24 : ℤ) := by
    have hnat : m < 2 ^ 24 := by
      have : (m : ℚ) < ((2 ^ 24 : ℕ) : ℚ) := by
        rw [zpow_ofNat] at h24; exact_mod_cast h24
      exact_mod_cast this
    have : ((m + 1 : ℕ) : ℚ) ≤ ((2 ^ 24 : ℕ) : ℚ) := by exact_mod_cast hnat
    rw [zpow_ofNat]; exact_mod_cast this
  rw [pow2_eq_zpow 23, pow2_eq_zpow 24]
  split_ifs with hup
  · push_cast
    refine ⟨?_, ?_, ?_, ?_⟩
    · exact mul_le_mul_of_nonneg_right (by linarith) (le_of_lt hu)
    · exact mul_le_mul_of_nonneg_right h24' (le_of_lt hu)
    · rw [hst]
      have : (((m : ℚ) + 1) * u - u / 2) ^ 2
          = (((m : ℚ) + 1 / 2) * ((m : ℚ) + 1 / 2)) * (u * u) := by ring
      rw [this]
      exact mul_le_mul_of_nonneg_right (le_of_lt hup) (le_of_lt huu)
    · rw [hst]
      have : (((m : ℚ) + 1) * u + u / 2) ^ 2
          = (((m : ℚ) + 3 / 2) * ((m : ℚ) + 3 / 2)) * (u * u) := by ring
      rw [this]
      exact mul_le_mul_of_nonneg_right (by nlinarith) (le_of_lt huu)
  · refine ⟨?_, ?_, ?_, ?_⟩
    · exact mul_le_mul_of_nonneg_right h23 (le_of_lt hu)
    · exact mul_le_mul_of_nonneg_right (le_of_lt h24) (le_of_lt hu)
    · rw [hst]
      have : ((m : ℚ) * u - u / 2) ^ 2
          = (((m : ℚ) - 1 / 2) * ((m : ℚ) - 1 / 2)) * (u * u) := by ring
      rw [this]
      exact mul_le_mul_of_nonneg_right (by nlinarith) (le_of_lt huu)
    · rw [hst]
      have : ((m : ℚ) * u + u / 2) ^ 2
          = (((m : ℚ) + 1 / 2) * ((m : ℚ) + 1 / 2)) * (u * u) := by ring
      rw [this]
      exact mul_le_mul_of_nonneg_right (not_lt.mp hup) (le_of_lt huu)

theorem Vector3.LengthGt_eq_not_LengthLe (a : Vector3) (r : ℚ) :
    a.LengthGt r = !a.LengthLe r := by
  unfold Vector3.LengthGt Vector3.LengthLe
  by_cases h : a.Length ≤ r
  · simp [h, not_lt.mpr h]
  · simp [h, not_le.mp h]

/-! ## The key codec -/

/-- C1, at the failing input: the world position (0,0,0) snaps to the chunk origin
(0,0,0), whose key decodes to (15000, 18446744073709551616000,
18446744073709551616000) and not back to (0,0,0). -/
theorem C1_round_trip_at_origin :
    WorldToChunkPosition ⟨0, 0, 0⟩ = ⟨0, 0, 0⟩ ∧
    KeyToChunkPosition (ChunkPositionToKey (WorldToChunkPosition ⟨0, 0, 0⟩))
      = ⟨15000, 18446744073709551616000, 18446744073709551616000⟩ ∧
    KeyToChunkPosition (ChunkPositionToKey (WorldToChunkPosition ⟨0, 0, 0⟩))
      ≠ WorldToChunkPosition ⟨0, 0, 0⟩ := by
  decide!

/-- C2, at the failing input: the two distinct chunk origins (0,0,0) and (0,1000,0)
have the same key 4295032833000000. -/
theorem C2_key_collision :
    (⟨0, 0, 0⟩ : Vector3) ≠ ⟨0, 1000, 0⟩ ∧
    WorldToChunkPosition ⟨0, 0, 0⟩ = ⟨0, 0, 0⟩ ∧
    WorldToChunkPosition ⟨0, 1000, 0⟩ = ⟨0, 1000, 0⟩ ∧
    ChunkPositionToKey ⟨0, 0, 0⟩ = 4295032833000000 ∧
    ChunkPositionToKey ⟨0, 1000, 0⟩ = 4295032833000000 := by
  decide!

/-! ## The in-flight counter -/

theorem JobsWithinBudget.setTimer {m : Int} {s : WorldStreamer} (h : JobsWithinBudget m s)
    (t : ℚ) : JobsWithinBudget m (setTimer s t) := h

theorem JobsWithinBudget.loadChunk {m : Int} {s : WorldStreamer} (h : JobsWithinBudget m s)
    (chunkPosition : Vector3) : JobsWithinBudget m (LoadChunk s chunkPosition) := by
  obtain ⟨hm, h0, h1⟩ := h
  unfold LoadChunk
  dsimp only
  split_ifs with hfound hfull
  · exact ⟨hm, h0, h1⟩
  · exact ⟨hm, h0, h1⟩
  · refine ⟨hm, ?_, ?_⟩
    · show 0 ≤ s.m_currentLoadingJobs + 1
      omega
    · show s.m_currentLoadingJobs + 1 ≤ m
      have : s.m_currentLoadingJobs < s.m_settings.maxConcurrentLoads := not_le.mp hfull
      omega

theorem JobsWithinBudget.unloadChunk {m : Int} {s : WorldStreamer} (h : JobsWithinBudget m s)
    (chunkPosition : Vector3) : JobsWithinBudget m (UnloadChunk s chunkPosition) := by
  obtain ⟨hm, h0, h1⟩ := h
  unfold UnloadChunk
  dsimp only
  split_ifs with hfound
  · refine ⟨hm, ?_, ?_⟩
    · show 0 ≤ max 0 (s.m_currentLoadingJobs - 1)
      exact le_max_left _ _
    · show max 0 (s.m_currentLoadingJobs - 1) ≤ m
      apply max_le <;> omega
  · exact ⟨hm, h0, h1⟩

theorem JobsWithinBudget.foldl_loadChunk {m : Int} (requests : List Vector3) :
    ∀ {s : WorldStreamer}, JobsWithinBudget m s → JobsWithinBudget m (requests.foldl LoadChunk s) := by
  induction requests with
  | nil => intro s h; exact h
  | cons c rest ih => intro s h; exact ih (h.loadChunk c)

theorem JobsWithinBudget.loadPass {m : Int} {s : WorldStreamer} (h : JobsWithinBudget m s) :
    JobsWithinBudget m (loadPass s) :=
  JobsWithinBudget.foldl_loadChunk _ h

theorem JobsWithinBudget.foldl_unloadChunk {m : Int} (keys : List Nat) :
    ∀ {s : WorldStreamer}, JobsWithinBudget m s →
      JobsWithinBudget m (keys.foldl (fun st key => UnloadChunk st (KeyToChunkPosition key)) s) := by
  induction keys with
  | nil => intro s h; exact h
  | cons k rest ih => intro s h; exact ih (h.unloadChunk _)

theorem JobsWithinBudget.unloadPass {m : Int} {s : WorldStreamer} (h : JobsWithinBudget m s) :
    JobsWithinBudget m (unloadPass s) :=
  JobsWithinBudget.foldl_unloadChunk _ h

theorem JobsWithinBudget.updateStreaming {m : Int} {s : WorldStreamer}
    (h : JobsWithinBudget m s) : JobsWithinBudget m (UpdateStreaming s) :=
  h.loadPass.unloadPass

theorem JobsWithinBudget.predictiveLoading {m : Int} {s : WorldStreamer}
    (h : JobsWithinBudget m s) : JobsWithinBudget m (PredictiveLoading s) := by
  unfold PredictiveLoading
  dsimp only
  split_ifs
  · exact h.loadChunk _
  · exact h

theorem JobsWithinBudget.cleanupUnusedChunks {m : Int} {s : WorldStreamer}
    (h : JobsWithinBudget m s) : JobsWithinBudget m (CleanupUnusedChunks s) := h

theorem JobsWithinBudget.streamingPasses {m : Int} {s : WorldStreamer}
    (h : JobsWithinBudget m s) : JobsWithinBudget m (streamingPasses s) := by
  unfold Daisy.streamingPasses
  dsimp only
  split_ifs
  · exact (h.updateStreaming.predictiveLoading).cleanupUnusedChunks
  · exact h.updateStreaming.cleanupUnusedChunks

theorem JobsWithinBudget.update {m : Int} {s : WorldStreamer} (h : JobsWithinBudget m s)
    (deltaTime : ℚ) : JobsWithinBudget m (Update s deltaTime) := by
  unfold Update
  dsimp only
  have hs := h.setTimer (f32 (s.m_streamingUpdateTimer + deltaTime))
  split_ifs
  · exact h
  · exact (hs.streamingPasses).setTimer 0
  · exact hs

theorem JobsWithinBudget.apply {m : Int} {s : WorldStreamer} (h : JobsWithinBudget m s)
    (c : Call) (hc : c.isStreamingCall = true) :
    JobsWithinBudget m (c.apply s) := by
  cases c with
  | Update deltaTime => exact h.update deltaTime
  | LoadChunk chunkPosition => exact h.loadChunk chunkPosition
  | UnloadChunk chunkPosition => exact h.unloadChunk chunkPosition
  | SetObserverPosition position => exact h
  | Initialize => simp [Call.isStreamingCall] at hc
  | Shutdown => simp [Call.isStreamingCall] at hc
  | SetStreamingSettings settings => simp [Call.isStreamingCall] at hc

theorem JobsWithinBudget.run {m : Int} (calls : List Call) :
    ∀ {s : WorldStreamer}, JobsWithinBudget m s → (∀ c ∈ calls, c.isStreamingCall = true) →
      JobsWithinBudget m (run s calls) := by
  induction calls with
  | nil => intro s h _; exact h
  | cons c rest ih =>
    intro s h hcalls
    exact ih (h.apply c (hcalls c (List.mem_cons_self _ _)))
      (fun d hd => hcalls d (List.mem_cons_of_mem _ hd))

/-- C4: starting from a freshly initialised streamer whose settings have
`maxConcurrentLoads = m` with `0 ≤ m`, after every finite sequence of `Update`,
`LoadChunk`, `UnloadChunk` and `SetObserverPosition` calls the in-flight counter
`m_currentLoadingJobs` is between 0 and `m`. -/
theorem C4_in_flight_bound (settings : StreamingSettings) (calls : List Call)
    (hm : 0 ≤ settings.maxConcurrentLoads)
    (hcalls : ∀ c ∈ calls, c.isStreamingCall = true) :
    0 ≤ (run (freshStreamer settings) calls).m_currentLoadingJobs ∧
    (run (freshStreamer settings) calls).m_currentLoadingJobs
      ≤ settings.maxConcurrentLoads := by
  have h0 : JobsWithinBudget settings.maxConcurrentLoads (freshStreamer settings) :=
    ⟨rfl, le_refl _, hm⟩
  exact (JobsWithinBudget.run calls h0 hcalls).2

/-- C4, witness: the budget 4, the load radius 1500 (19 candidates) and the calls
`SetObserverPosition((0,0,0))`, `Update(0.1f)`, `LoadChunk((5000,0,0))`,
`UnloadChunk((-1000,0,0))`, `Update(0.1f)`. -/
theorem C4_in_flight_bound_witness :
    (0 : Int) ≤ budgetFourSettings.maxConcurrentLoads ∧
    (∀ c ∈ budgetFourCalls, c.isStreamingCall = true) ∧
    0 ≤ (run (freshStreamer budgetFourSettings) budgetFourCalls).m_currentLoadingJobs ∧
    (run (freshStreamer budgetFourSettings) budgetFourCalls).m_currentLoadingJobs
      ≤ budgetFourSettings.maxConcurrentLoads :=
  ⟨by decide, by decide,
    C4_in_flight_bound budgetFourSettings budgetFourCalls (by decide) (by decide)⟩

/-! ## Candidate chunks -/

/-- C5: with `loadRadius = 1500` and the observer at (0,0,0), the origins for which
the main pass of `UpdateStreaming` calls `LoadChunk` are, each exactly once, the
origin (0,0,0), its 6 face neighbours and its 12 edge-diagonal neighbours (19
origins); none of the 8 corner-diagonal neighbours is requested. -/
theorem C5_candidates_radius_1500 :
    List.Perm (loadRequests ⟨0, 0, 0⟩ 1500)
      ([⟨0, 0, 0⟩] ++
       [⟨1000, 0, 0⟩, ⟨-1000, 0, 0⟩, ⟨0, 1000, 0⟩, ⟨0, -1000, 0⟩, ⟨0, 0, 1000⟩, ⟨0, 0, -1000⟩] ++
       [⟨1000, 1000, 0⟩, ⟨1000, -1000, 0⟩, ⟨-1000, 1000, 0⟩, ⟨-1000, -1000, 0⟩,
        ⟨1000, 0, 1000⟩, ⟨1000, 0, -1000⟩, ⟨-1000, 0, 1000⟩, ⟨-1000, 0, -1000⟩,
        ⟨0, 1000, 1000⟩, ⟨0, 1000, -1000⟩, ⟨0, -1000, 1000⟩, ⟨0, -1000, -1000⟩]) ∧
    (loadRequests ⟨0, 0, 0⟩ 1500).length = 19 ∧
    ∀ c ∈ ([⟨1000, 1000, 1000⟩, ⟨1000, 1000, -1000⟩, ⟨1000, -1000, 1000⟩, ⟨1000, -1000, -1000⟩,
            ⟨-1000, 1000, 1000⟩, ⟨-1000, 1000, -1000⟩, ⟨-1000, -1000, 1000⟩,
            ⟨-1000, -1000, -1000⟩] : List Vector3),
      c ∉ loadRequests ⟨0, 0, 0⟩ 1500 := by
  decide!

/-- C6, at the failing input: with the observer at (600,0,0) and `loadRadius = 1500`
the chunk origin (2000,0,0) is at distance 1400 from the observer, within the load
radius, and the main pass of `UpdateStreaming` does not request it: the cube of
offsets reaches only one chunk to each side of the observer. -/
theorem C6_origin_in_radius_not_requested :
    WorldToChunkPosition ⟨2000, 0, 0⟩ = ⟨2000, 0, 0⟩ ∧
    ((⟨2000, 0, 0⟩ : Vector3).sub ⟨600, 0, 0⟩).LengthLe 1400 = true ∧
    ((⟨2000, 0, 0⟩ : Vector3).sub ⟨600, 0, 0⟩).LengthLe 1500 = true ∧
    castInt (1500 / 1000) = 1 ∧
    (⟨2000, 0, 0⟩ : Vector3) ∉ loadRequests ⟨600, 0, 0⟩ 1500 := by
  decide!

/-! ## The integer part of the key codec -/

/-- Adding the bias to a field from which `KeyToChunkPosition` subtracted it gives
the field back, in arithmetic modulo `2^64`. -/

theorem wrap_sub_add (f : Nat) (hf : f < 2 ^ 32) :
    ((f + 2 ^ 64 - 1000000) % 2 ^ 64 + 1000000) % 2 ^ 64 = f := by
  omega

/-- Packing the three fields that `KeyToChunkPosition` extracts from a key gives the
key back. -/
theorem pack_fields (key : Nat) (hkey : key < 2 ^ 64) :
    (((key >>> 32 &&& 0xFFFFFFFF) <<< 32) % 2 ^ 64) |||
      (((key >>> 16 &&& 0xFFFF) <<< 16) % 2 ^ 64) ||| (key &&& 0xFFFF) = key := by
  have e32 : (0xFFFFFFFF : Nat) = 2 ^ 32 - 1 := by norm_num
  have e16 : (0xFFFF : Nat) = 2 ^ 16 - 1 := by norm_num
  rw [e32, e16, Nat.and_pow_two_sub_one_eq_mod, Nat.and_pow_two_sub_one_eq_mod,
    Nat.and_pow_two_sub_one_eq_mod, Nat.shiftRight_eq_div_pow, Nat.shiftRight_eq_div_pow,
    Nat.shiftLeft_eq, Nat.shiftLeft_eq, Nat.or_assoc]
  have hz : key % 2 ^ 16 < 2 ^ 16 := Nat.mod_lt _ (by norm_num)
  have hy : key / 2 ^ 16 % 2 ^ 16 * 2 ^ 16 % 2 ^ 64 = 2 ^ 16 * (key / 2 ^ 16 % 2 ^ 16) := by
    omega
  have hx : key / 2 ^ 32 % 2 ^ 32 * 2 ^ 32 % 2 ^ 64 = 2 ^ 32 * (key / 2 ^ 32 % 2 ^ 32) := by
    omega
  rw [hy, hx, ← Nat.mul_add_lt_is_or hz]
  have hyz : 2 ^ 16 * (key / 2 ^ 16 % 2 ^ 16) + key % 2 ^ 16 < 2 ^ 32 := by omega
  rw [← Nat.mul_add_lt_is_or hyz]
  omega

/-! ## The unload pass -/

/-- C8, at the failing input: the chunks of (0,0,0) and (0,0,9000) are resident, the
observer is at (0,0,0) and `unloadRadius = 8000`.  The unload pass selects the key of
the chunk at distance 9000, decodes it to (15000, 2^64 * 1000, 2^64 * 1000) (the y
and z fields, near `2^64`, are rounded to `2^64` by the conversion to `float`), and
`UnloadChunk` on that position erases the entry under the key of (0,0,0): after the
pass, and after a whole tick, the chunk at distance 9000 is resident and the chunk
at distance 0 is not. -/
theorem C8_unload_erases_near_chunk :
    nearAndFarChunks.m_chunks
      = [(4295032833000000, loadedChunk ⟨0, 0, 0⟩),
         (4295032833000009, loadedChunk ⟨0, 0, 9000⟩)] ∧
    nearAndFarChunks.m_observerPosition = ⟨0, 0, 0⟩ ∧
    nearAndFarChunks.m_settings.unloadRadius = 8000 ∧
    ((⟨0, 0, 0⟩ : Vector3).sub ⟨0, 0, 0⟩).Length = 0 ∧
    ((⟨0, 0, 9000⟩ : Vector3).sub ⟨0, 0, 0⟩).Length = 9000 ∧
    chunksToUnload nearAndFarChunks = [4295032833000009] ∧
    KeyToChunkPosition 4295032833000009
      = ⟨15000, 18446744073709551616000, 18446744073709551616000⟩ ∧
    ChunkPositionToKey (KeyToChunkPosition 4295032833000009) = 4295032833000000 ∧
    (unloadPass nearAndFarChunks).m_chunks
      = [(4295032833000009, loadedChunk ⟨0, 0, 9000⟩)] ∧
    (UpdateStreaming nearAndFarChunks).m_chunks
      = [(4295032833000009, loadedChunk ⟨0, 0, 9000⟩)] ∧
    (tick nearAndFarChunks).m_chunks = [(4295032833000009, loadedChunk ⟨0, 0, 9000⟩)] := by
  decide!

/-! ## Settings and observer are kept -/

theorem inputs_LoadChunk (s : WorldStreamer) (p : Vector3) :
    (LoadChunk s p).inputs = s.inputs := by
  unfold LoadChunk
  dsimp only
  split_ifs <;> rfl

theorem inputs_UnloadChunk (s : WorldStreamer) (p : Vector3) :
    (UnloadChunk s p).inputs = s.inputs := by
  unfold UnloadChunk
  dsimp only
  split_ifs <;> rfl

theorem inputs_foldl_LoadChunk (requests : List Vector3) :
    ∀ s : WorldStreamer, (requests.foldl LoadChunk s).inputs = s.inputs := by
  induction requests with
  | nil => intro s; rfl
  | cons c rest ih => intro s; rw [List.foldl_cons, ih, inputs_LoadChunk]

theorem inputs_foldl_UnloadChunk (keys : List Nat) :
    ∀ s : WorldStreamer,
      (keys.foldl (fun st key => UnloadChunk st (KeyToChunkPosition key)) s).inputs
        = s.inputs := by
  induction keys with
  | nil => intro s; rfl
  | cons k rest ih => intro s; rw [List.foldl_cons, ih, inputs_UnloadChunk]

theorem inputs_UpdateStreaming (s : WorldStreamer) : (UpdateStreaming s).inputs = s.inputs := by
  unfold UpdateStreaming unloadPass loadPass
  rw [inputs_foldl_UnloadChunk, inputs_foldl_LoadChunk]

theorem inputs_PredictiveLoading (s : WorldStreamer) :
    (PredictiveLoading s).inputs = s.inputs := by
  unfold PredictiveLoading
  dsimp only
  split_ifs
  · rw [inputs_LoadChunk]
  · rfl

theorem inputs_CleanupUnusedChunks (s : WorldStreamer) :
    (CleanupUnusedChunks s).inputs = s.inputs := rfl

theorem inputs_setTimer (s : WorldStreamer) (t : ℚ) : (setTimer s t).inputs = s.inputs := rfl

theorem inputs_streamingPasses (s : WorldStreamer) :
    (streamingPasses s).inputs = s.inputs := by
  unfold streamingPasses
  dsimp only
  rw [inputs_CleanupUnusedChunks]
  split_ifs
  · rw [inputs_PredictiveLoading, inputs_UpdateStreaming]
  · rw [inputs_UpdateStreaming]

theorem inputs_Update (s : WorldStreamer) (deltaTime : ℚ) :
    (Update s deltaTime).inputs = s.inputs := by
  unfold Update
  dsimp only
  split_ifs
  · rfl
  · rw [inputs_setTimer, inputs_streamingPasses, inputs_setTimer]
  · rw [inputs_setTimer]

theorem m_settings_eq_of_inputs {s t : WorldStreamer} (h : s.inputs = t.inputs) :
    s.m_settings = t.m_settings :=
  congrArg Prod.fst h

theorem foldl_Update_settings (deltaTimes : List ℚ) :
    ∀ s : WorldStreamer, (deltaTimes.foldl (Update) s).m_settings = s.m_settings := by
  induction deltaTimes with
  | nil => intro s; rfl
  | cons d rest ih =>
    intro s
    exact (ih _).trans (m_settings_eq_of_inputs (inputs_Update s d))

/-- C7, counterexample: the settings with `loadRadius = 1000` and
`unloadRadius = 500` have `unloadRadius <= loadRadius`; `SetStreamingSettings`
stores them as they are, and they are still the settings after the next tick. -/
theorem C7_settings_not_validated :
    (500 : ℚ) ≤ 1000 ∧
    (SetStreamingSettings (freshStreamer {}) { loadRadius := 1000, unloadRadius := 500 }).m_settings
      = { loadRadius := 1000, unloadRadius := 500 } ∧
    ¬ ((tick (SetStreamingSettings (freshStreamer {})
          { loadRadius := 1000, unloadRadius := 500 })).m_settings.unloadRadius
        > (tick (SetStreamingSettings (freshStreamer {})
          { loadRadius := 1000, unloadRadius := 500 })).m_settings.loadRadius) := by
  decide!

/-- C7, amended: `SetStreamingSettings` stores the settings it is given unchanged,
whatever their radii, and the settings the streamer uses after any number of later
`Update` calls are exactly those it was given. -/
theorem C7_settings_stored_as_given (s : WorldStreamer)
    (settings : StreamingSettings) (deltaTimes : List ℚ) :
    (SetStreamingSettings s settings).m_settings = settings ∧
    (deltaTimes.foldl (Update) (SetStreamingSettings s settings)).m_settings
      = settings :=
  ⟨rfl, foldl_Update_settings deltaTimes _⟩

/-! ## The pending queue is only written -/

theorem LoadChunk_addPending (q : List Vector3) (s : WorldStreamer) (p : Vector3) :
    LoadChunk (addPending q s) p = addPending q (LoadChunk s p) := by
  unfold LoadChunk addPending
  dsimp only
  split_ifs
  · rfl
  · simp only [List.append_assoc]
  · rfl

theorem UnloadChunk_addPending (q : List Vector3) (s : WorldStreamer) (p : Vector3) :
    UnloadChunk (addPending q s) p = addPending q (UnloadChunk s p) := by
  unfold UnloadChunk addPending
  dsimp only
  split_ifs <;> rfl

theorem foldl_LoadChunk_addPending (q : List Vector3) (requests : List Vector3) :
    ∀ s : WorldStreamer,
      requests.foldl LoadChunk (addPending q s) = addPending q (requests.foldl LoadChunk s) := by
  induction requests with
  | nil => intro s; rfl
  | cons c rest ih => intro s; rw [List.foldl_cons, List.foldl_cons, LoadChunk_addPending, ih]

theorem foldl_UnloadChunk_addPending (q : List Vector3) (keys : List Nat) :
    ∀ s : WorldStreamer,
      keys.foldl (fun st key => UnloadChunk st (KeyToChunkPosition key)) (addPending q s)
        = addPending q
            (keys.foldl (fun st key => UnloadChunk st (KeyToChunkPosition key)) s) := by
  induction keys with
  | nil => intro s; rfl
  | cons k rest ih =>
    intro s
    rw [List.foldl_cons, List.foldl_cons, UnloadChunk_addPending, ih]

theorem loadPass_addPending (q : List Vector3) (s : WorldStreamer) :
    loadPass (addPending q s) = addPending q (loadPass s) := by
  unfold loadPass
  exact foldl_LoadChunk_addPending q _ s

theorem chunksToUnload_addPending (q : List Vector3) (s : WorldStreamer) :
    chunksToUnload (addPending q s) = chunksToUnload s := rfl

theorem unloadPass_addPending (q : List Vector3) (s : WorldStreamer) :
    unloadPass (addPending q s) = addPending q (unloadPass s) := by
  unfold unloadPass
  rw [chunksToUnload_addPending]
  exact foldl_UnloadChunk_addPending q _ s

theorem UpdateStreaming_addPending (q : List Vector3) (s : WorldStreamer) :
    UpdateStreaming (addPending q s) = addPending q (UpdateStreaming s) := by
  unfold UpdateStreaming
  rw [loadPass_addPending, unloadPass_addPending]

theorem PredictiveLoading_addPending (q : List Vector3) (s : WorldStreamer) :
    PredictiveLoading (addPending q s) = addPending q (PredictiveLoading s) := by
  unfold PredictiveLoading
  dsimp only
  have h1 : (addPending q s).m_observerPosition = s.m_observerPosition := rfl
  have h2 : (addPending q s).m_lastObserverPosition = s.m_lastObserverPosition := rfl
  have h3 : (addPending q s).m_settings = s.m_settings := rfl
  rw [h1, h2, h3]
  split_ifs
  · exact LoadChunk_addPending q s _
  · rfl

theorem CleanupUnusedChunks_addPending (q : List Vector3) (s : WorldStreamer) :
    CleanupUnusedChunks (addPending q s) = addPending q (CleanupUnusedChunks s) := rfl

theorem setTimer_addPending (q : List Vector3) (s : WorldStreamer) (t : ℚ) :
    setTimer (addPending q s) t = addPending q (setTimer s t) := rfl

theorem streamingPasses_addPending (q : List Vector3) (s : WorldStreamer) :
    streamingPasses (addPending q s) = addPending q (streamingPasses s) := by
  unfold streamingPasses
  dsimp only
  rw [UpdateStreaming_addPending]
  have h3 : (addPending q (UpdateStreaming s)).m_settings = (UpdateStreaming s).m_settings := rfl
  rw [h3]
  split_ifs
  · rw [PredictiveLoading_addPending, CleanupUnusedChunks_addPending]
  · rw [CleanupUnusedChunks_addPending]

theorem Update_addPending (q : List Vector3) (s : WorldStreamer)
    (deltaTime : ℚ) :
    Update (addPending q s) deltaTime = addPending q (Update s deltaTime) := by
  unfold Update
  dsimp only
  have h1 : (addPending q s).m_initialized = s.m_initialized := rfl
  have h2 : (addPending q s).m_streamingUpdateTimer = s.m_streamingUpdateTimer := rfl
  rw [h1, h2, setTimer_addPending]
  have h3 : (addPending q (setTimer s (f32 (s.m_streamingUpdateTimer + deltaTime)))).m_streamingUpdateTimer
      = (setTimer s (f32 (s.m_streamingUpdateTimer + deltaTime))).m_streamingUpdateTimer := rfl
  rw [h3]
  split_ifs
  · rfl
  · rw [streamingPasses_addPending, setTimer_addPending]
  · rfl

theorem addPending_addPending (q r : List Vector3) (s : WorldStreamer) :
    addPending q (addPending r s) = addPending (q ++ r) s := by
  unfold addPending
  simp only [List.append_assoc]

/-! ## An observer at rest -/

theorem PredictiveLoading_at_rest (s : WorldStreamer)
    (h : s.m_observerPosition = s.m_lastObserverPosition) : PredictiveLoading s = s := by
  unfold PredictiveLoading
  dsimp only
  rw [h]
  have hzero : (s.m_lastObserverPosition.sub s.m_lastObserverPosition).LengthSquared = 0 := by
    unfold Vector3.LengthSquared Vector3.sub
    simp [f32_zero]
  rw [hzero, if_neg (lt_irrefl _)]

theorem observer_eq_of_inputs {s t : WorldStreamer} (h : s.inputs = t.inputs)
    (hrest : t.m_observerPosition = t.m_lastObserverPosition) :
    s.m_observerPosition = s.m_lastObserverPosition := by
  have h1 : s.m_observerPosition = t.m_observerPosition := congrArg (fun i => i.2.1) h
  have h2 : s.m_lastObserverPosition = t.m_lastObserverPosition := congrArg (fun i => i.2.2) h
  rw [h1, h2, hrest]

/-! ## Ticks with the budget 4 -/

theorem tick_fresh_budgetFour :
    tick (freshStreamer budgetFourSettings)
      = addPending queuedEachTick budgetFourFull := by
  decide!

theorem tick_budgetFourFull :
    tick budgetFourFull = addPending queuedEachTick budgetFourFull := by
  decide!

theorem tick_addPending_budgetFourFull (q : List Vector3) :
    tick (addPending q budgetFourFull)
      = addPending (q ++ queuedEachTick) budgetFourFull := by
  unfold tick
  rw [Update_addPending]
  have h := tick_budgetFourFull
  unfold tick at h
  rw [h, addPending_addPending]

theorem ticks_addPending_budgetFourFull (n : Nat) :
    ∀ q : List Vector3, ticks n (addPending q budgetFourFull)
      = addPending (q ++ (List.replicate n queuedEachTick).flatten) budgetFourFull := by
  induction n with
  | zero => intro q; simp [ticks]
  | succ n ih =>
    intro q
    rw [ticks, tick_addPending_budgetFourFull, ih, List.replicate_succ, List.flatten_cons,
      List.append_assoc]

theorem ticks_succ_fresh_budgetFour (n : Nat) :
    ticks (n + 1) (freshStreamer budgetFourSettings)
      = addPending (List.replicate (n + 1) queuedEachTick).flatten budgetFourFull := by
  rw [ticks, tick_fresh_budgetFour, ticks_addPending_budgetFourFull, List.replicate_succ,
    List.flatten_cons]

theorem GetChunk_addPending (q : List Vector3) (s : WorldStreamer) (p : Vector3) :
    GetChunk (addPending q s) p = GetChunk s p := rfl

/-- The pending queue is only written: a tick from a state with more pending requests
gives the same state with those requests still pending.  With
`maxConcurrentLoads = 4`, `loadRadius = 1500` and the observer at rest at (0,0,0),
after every number `n + 1` of ticks the resident chunks are those of the first four
candidates only, the in-flight counter is 4, and the pending queue holds `n + 1`
copies of the requests of one tick. -/
theorem ticks_fresh_budgetFour_state (n : Nat) :
    (∀ (q : List Vector3) (s : WorldStreamer),
      tick (addPending q s) = addPending q (tick s)) ∧
    (ticks (n + 1) (freshStreamer budgetFourSettings)).m_chunks = firstFourChunks ∧
    (ticks (n + 1) (freshStreamer budgetFourSettings)).m_currentLoadingJobs = 4 ∧
    (ticks (n + 1) (freshStreamer budgetFourSettings)).m_chunksToLoad
      = (List.replicate (n + 1) queuedEachTick).flatten := by
  refine ⟨fun q s => Update_addPending q s _, ?_⟩
  rw [ticks_succ_fresh_budgetFour]
  refine ⟨rfl, rfl, ?_⟩
  show (List.replicate (n + 1) queuedEachTick).flatten ++ [] = _
  rw [List.append_nil]

/-- C9, at the failing input: with `maxConcurrentLoads = 4`, `loadRadius = 1500` and
the observer at rest at (0,0,0), after every number `n + 1` of ticks the in-flight
counter is 4, the budget, the resident chunks are the four loaded by the first tick,
and the request for (0,0,0) is among the requests left on the pending queue; so there
is no number `n` of ticks after which `GetChunk` finds a resident chunk at every
candidate origin: it never finds one at the candidate (0,0,0). -/
theorem C9_no_tick_count_serves_all :
    (¬ ∃ (n : Nat), ∀ c ∈ loadRequests ⟨0, 0, 0⟩ 1500,
        (GetChunk (ticks n (freshStreamer budgetFourSettings)) c).isSome = true) ∧
    (∀ n : Nat,
      (ticks (n + 1) (freshStreamer budgetFourSettings)).m_currentLoadingJobs = 4 ∧
      (ticks (n + 1) (freshStreamer budgetFourSettings)).m_settings.maxConcurrentLoads = 4 ∧
      (ticks (n + 1) (freshStreamer budgetFourSettings)).m_chunks.length = 4 ∧
      (⟨0, 0, 0⟩ : Vector3) ∈ (ticks (n + 1) (freshStreamer budgetFourSettings)).m_chunksToLoad ∧
      GetChunk (ticks (n + 1) (freshStreamer budgetFourSettings)) ⟨0, 0, 0⟩ = none) := by
  refine ⟨?_, fun n => ?_⟩
  swap
  · rw [ticks_succ_fresh_budgetFour]
    refine ⟨rfl, rfl, rfl, ?_, ?_⟩
    · show (⟨0, 0, 0⟩ : Vector3) ∈ (List.replicate (n + 1) queuedEachTick).flatten ++ []
      rw [List.append_nil, List.replicate_succ, List.flatten_cons]
      exact List.mem_append_left _ (by decide!)
    · rw [GetChunk_addPending]
      decide!
  rintro ⟨n, h⟩
  have hmem : (⟨0, 0, 0⟩ : Vector3) ∈ loadRequests ⟨0, 0, 0⟩ 1500 := by decide!
  have h0 := h ⟨0, 0, 0⟩ hmem
  cases n with
  | zero =>
    have hnone : GetChunk (freshStreamer budgetFourSettings) ⟨0, 0, 0⟩ = none := by decide!
    rw [ticks, hnone] at h0
    exact absurd h0 (by simp)
  | succ n =>
    have hnone : GetChunk budgetFourFull ⟨0, 0, 0⟩ = none := by decide!
    rw [ticks_succ_fresh_budgetFour, GetChunk_addPending, hnone] at h0
    exact absurd h0 (by simp)

/-- C10, at the failing input: with the observer at (0,0,0), `loadRadius = 1500` and
`maxConcurrentLoads = 19`, one tick on an empty store leaves 10 resident chunks, not
19: the other 9 candidates have the key of a chunk loaded before them.  The
candidate (0,1000,0) has no chunk of its own: `GetChunk` returns for it the chunk
stored with position (0,0,0). -/
theorem C10_ten_chunks_for_nineteen_candidates :
    (tick (freshStreamer budgetNineteenSettings)).m_chunks.map (fun e => e.2.position)
      = [⟨-1000, -1000, 0⟩, ⟨-1000, 0, -1000⟩, ⟨-1000, 0, 0⟩, ⟨-1000, 0, 1000⟩,
         ⟨0, -1000, -1000⟩, ⟨0, -1000, 0⟩, ⟨0, -1000, 1000⟩, ⟨0, 0, -1000⟩, ⟨0, 0, 0⟩,
         ⟨0, 0, 1000⟩] ∧
    (tick (freshStreamer budgetNineteenSettings)).m_chunks.length = 10 ∧
    (tick (freshStreamer budgetNineteenSettings)).m_currentLoadingJobs = 10 ∧
    (GetChunk (tick (freshStreamer budgetNineteenSettings)) ⟨0, 1000, 0⟩).map
      WorldChunk.position = some ⟨0, 0, 0⟩ := by
  decide!

/-! ## Lookups go by key -/

theorem mem_of_lookup_eq_some (m : List (Nat × WorldChunk)) (key : Nat) (c : WorldChunk)
    (h : m.lookup key = some c) : (key, c) ∈ m := by
  induction m with
  | nil => simp at h
  | cons e rest ih =>
    obtain ⟨k, d⟩ := e
    by_cases hk : key = k
    · subst hk
      simp [List.lookup] at h
      subst h
      exact List.mem_cons_self _ _
    · have hne : (key == k) = false := by simpa using hk
      rw [List.lookup_cons, hne] at h
      exact List.mem_cons_of_mem _ (ih h)

theorem keysMatch_mapErase {m : List (Nat × WorldChunk)} (h : KeysMatch m) (key : Nat) :
    KeysMatch (mapErase m key) :=
  fun e he => h e (List.mem_filter.mp he).1

theorem keysMatch_foldl_mapErase (keys : List Nat) :
    ∀ {m : List (Nat × WorldChunk)}, KeysMatch m → KeysMatch (keys.foldl Daisy.mapErase m) := by
  induction keys with
  | nil => intro m h; exact h
  | cons k rest ih => intro m h; exact ih (keysMatch_mapErase h k)

theorem keysMatch_mapSet {m : List (Nat × WorldChunk)} (h : KeysMatch m) (c : WorldChunk) :
    KeysMatch (mapSet m (ChunkPositionToKey c.position) c) := by
  unfold Daisy.mapSet
  split_ifs
  · intro e he
    obtain ⟨d, hd, hde⟩ := List.mem_map.mp he
    by_cases hkey : (d.1 == ChunkPositionToKey c.position) = true
    · rw [if_pos hkey] at hde
      rw [← hde]
    · rw [if_neg hkey] at hde
      rw [← hde]
      exact h d hd
  · intro e he
    rcases List.mem_append.mp he with he | he
    · exact h e he
    · rw [List.mem_singleton.mp he]

theorem keysMatch_loadChunk {s : WorldStreamer} (h : KeysMatch s.m_chunks) (p : Vector3) :
    KeysMatch (LoadChunk s p).m_chunks := by
  unfold LoadChunk
  dsimp only
  split_ifs
  · exact h
  · exact h
  · exact keysMatch_mapSet h
      { GenerateChunk { position := p, loaded := false } with
        loaded := true, lastAccessTime := 0, position := p }

theorem keysMatch_unloadChunk {s : WorldStreamer} (h : KeysMatch s.m_chunks) (p : Vector3) :
    KeysMatch (UnloadChunk s p).m_chunks := by
  unfold UnloadChunk
  dsimp only
  split_ifs
  · exact keysMatch_mapErase h _
  · exact h

theorem keysMatch_foldl_loadChunk (requests : List Vector3) :
    ∀ {s : WorldStreamer}, KeysMatch s.m_chunks →
      KeysMatch (requests.foldl LoadChunk s).m_chunks := by
  induction requests with
  | nil => intro s h; exact h
  | cons c rest ih => intro s h; exact ih (keysMatch_loadChunk h c)

theorem keysMatch_foldl_unloadChunk (keys : List Nat) :
    ∀ {s : WorldStreamer}, KeysMatch s.m_chunks →
      KeysMatch
        (keys.foldl (fun st key => UnloadChunk st (KeyToChunkPosition key)) s).m_chunks := by
  induction keys with
  | nil => intro s h; exact h
  | cons k rest ih => intro s h; exact ih (keysMatch_unloadChunk h _)

theorem keysMatch_updateStreaming {s : WorldStreamer} (h : KeysMatch s.m_chunks) :
    KeysMatch (UpdateStreaming s).m_chunks := by
  unfold UpdateStreaming unloadPass loadPass
  exact keysMatch_foldl_unloadChunk _ (keysMatch_foldl_loadChunk _ h)

theorem keysMatch_predictiveLoading {s : WorldStreamer} (h : KeysMatch s.m_chunks) :
    KeysMatch (PredictiveLoading s).m_chunks := by
  unfold PredictiveLoading
  dsimp only
  split_ifs
  · exact keysMatch_loadChunk h _
  · exact h

theorem m_chunks_CleanupUnusedChunks (s : WorldStreamer) :
    (CleanupUnusedChunks s).m_chunks
      = ((s.m_chunks.filter fun e => e.2.lastAccessTime > 300).map Prod.fst).foldl
          mapErase s.m_chunks := rfl

theorem m_chunks_setTimer (s : WorldStreamer) (t : ℚ) :
    (setTimer s t).m_chunks = s.m_chunks := rfl

theorem keysMatch_streamingPasses {s : WorldStreamer} (h : KeysMatch s.m_chunks) :
    KeysMatch (streamingPasses s).m_chunks := by
  unfold Daisy.streamingPasses
  dsimp only
  rw [m_chunks_CleanupUnusedChunks]
  apply keysMatch_foldl_mapErase
  split_ifs
  · exact keysMatch_predictiveLoading (keysMatch_updateStreaming h)
  · exact keysMatch_updateStreaming h

theorem keysMatch_update {s : WorldStreamer} (h : KeysMatch s.m_chunks)
    (deltaTime : ℚ) : KeysMatch (Update s deltaTime).m_chunks := by
  have hs : KeysMatch (setTimer s (f32 (s.m_streamingUpdateTimer + deltaTime))).m_chunks := h
  unfold Update
  dsimp only
  split_ifs
  · exact h
  · rw [m_chunks_setTimer]
    exact keysMatch_streamingPasses hs
  · exact hs

theorem keysMatch_apply {s : WorldStreamer} (h : KeysMatch s.m_chunks)
    (c : Call) : KeysMatch (c.apply s).m_chunks := by
  cases c with
  | Initialize => exact h
  | Update deltaTime => exact keysMatch_update h deltaTime
  | Shutdown =>
    show KeysMatch (Shutdown s).m_chunks
    unfold Shutdown
    split_ifs
    · exact h
    · intro e he
      exact absurd he (List.not_mem_nil e)
  | SetObserverPosition position => exact h
  | SetStreamingSettings settings => exact h
  | LoadChunk chunkPosition => exact keysMatch_loadChunk h chunkPosition
  | UnloadChunk chunkPosition => exact keysMatch_unloadChunk h chunkPosition

theorem keysMatch_run (calls : List Call) :
    ∀ {s : WorldStreamer}, KeysMatch s.m_chunks → KeysMatch (run s calls).m_chunks := by
  induction calls with
  | nil => intro s h; exact h
  | cons c rest ih => intro s h; exact ih (keysMatch_apply h c)

/-- In every state reachable from a freshly constructed streamer through the public
operations, a chunk that `GetChunk(worldPosition)` returns is the one stored under
the key of `WorldToChunkPosition(worldPosition)`, and the stored position of that
chunk has the same key as the requested cell. -/
theorem GetChunk_of_run (calls : List Call) (worldPosition : Vector3)
    (chunk : WorldChunk)
    (h : GetChunk (run {} calls) worldPosition = some chunk) :
    (ChunkPositionToKey (WorldToChunkPosition worldPosition), chunk)
      ∈ (run {} calls).m_chunks ∧
    ChunkPositionToKey chunk.position
      = ChunkPositionToKey (WorldToChunkPosition worldPosition) := by
  have hempty : KeysMatch ({} : WorldStreamer).m_chunks :=
    fun e he => absurd he (List.not_mem_nil e)
  have hinv : KeysMatch (run {} calls).m_chunks := keysMatch_run calls hempty
  generalize run {} calls = s at h hinv ⊢
  unfold GetChunk mapFind at h
  dsimp only at h
  have hmem := mem_of_lookup_eq_some s.m_chunks _ chunk h
  have hkey := hinv _ hmem
  exact ⟨hmem, hkey⟩

/-- C3, at the failing input: after the calls `Initialize` and `LoadChunk((0,0,0))` on
a freshly constructed streamer, `GetChunk((0,1000,0))` returns the chunk whose stored
origin is (0,0,0).  The positions (0,0,0) and (0,1000,0) are the origins of two
different grid cells (each is its own `WorldToChunkPosition`); they have the same
key, and the lookup goes by the key alone. -/
theorem C3_GetChunk_other_cell :
    GetChunk (run {} [.Initialize, .LoadChunk ⟨0, 0, 0⟩]) ⟨0, 1000, 0⟩
      = some (loadedChunk ⟨0, 0, 0⟩) ∧
    (loadedChunk ⟨0, 0, 0⟩).position = ⟨0, 0, 0⟩ ∧
    WorldToChunkPosition ⟨0, 1000, 0⟩ = ⟨0, 1000, 0⟩ ∧
    WorldToChunkPosition ⟨0, 0, 0⟩ = ⟨0, 0, 0⟩ ∧
    (loadedChunk ⟨0, 0, 0⟩).position ≠ WorldToChunkPosition ⟨0, 1000, 0⟩ ∧
    ChunkPositionToKey ⟨0, 1000, 0⟩ = ChunkPositionToKey ⟨0, 0, 0⟩ := by
  decide!

/-! ## Snapping to the chunk grid -/

/-- C11, at the failing inputs.  The binary32 number 134219008 snaps to itself, which
is not a multiple of 1000 (`1000 * floor(134219008 / 1000)` is 134219000, which is
not a binary32 number).  The number -273917673472 snaps to -273917657088, which is
above it; the number -17080067072 snaps to -17080068096, which is 1024 below it.
A small negative coordinate snaps downwards: (-1,-1,-1) snaps to
(-1000,-1000,-1000). -/
theorem C11_snap_off_grid :
    f32 134219008 = 134219008 ∧
    WorldToChunkPosition ⟨134219008, 0, 0⟩ = ⟨134219008, 0, 0⟩ ∧
    1000 * ((⌊(134219008 : ℚ) / 1000⌋ : ℤ) : ℚ) = 134219000 ∧
    (∀ n : ℤ, (WorldToChunkPosition ⟨134219008, 0, 0⟩).x ≠ 1000 * (n : ℚ)) ∧
    f32 (-273917673472) = -273917673472 ∧
    WorldToChunkPosition ⟨-273917673472, 0, 0⟩ = ⟨-273917657088, 0, 0⟩ ∧
    (-273917673472 : ℚ) < (WorldToChunkPosition ⟨-273917673472, 0, 0⟩).x ∧
    f32 (-17080067072) = -17080067072 ∧
    WorldToChunkPosition ⟨-17080067072, 0, 0⟩ = ⟨-17080068096, 0, 0⟩ ∧
    (-17080067072 : ℚ) - (WorldToChunkPosition ⟨-17080067072, 0, 0⟩).x = 1024 ∧
    WorldToChunkPosition ⟨-1, -1, -1⟩ = ⟨-1000, -1000, -1000⟩ := by
  have hW : WorldToChunkPosition ⟨134219008, 0, 0⟩ = ⟨134219008, 0, 0⟩ := by decide!
  refine ⟨by decide!, hW, by decide!, ?_, by decide!, by decide!, by decide!, by decide!,
    by decide!, by decide!, by decide!⟩
  intro n hn
  rw [hW] at hn
  have hq : (134219008 : ℚ) = 1000 * (n : ℚ) := hn
  have h : (134219008 : ℤ) = 1000 * n := by exact_mod_cast hq
  omega

/-! ## Keys outside the supported range -/

theorem ChunkPositionToKey_lt (chunkPos : Vector3) : ChunkPositionToKey chunkPos < 2 ^ 64 := by
  unfold ChunkPositionToKey
  dsimp only
  apply Nat.or_lt_two_pow
  · apply Nat.or_lt_two_pow
    · exact Nat.mod_lt _ (by norm_num)
    · exact Nat.mod_lt _ (by norm_num)
  · exact Nat.mod_lt _ (by norm_num)

/-- C12, counterexample: the chunk origin (4294967296000,0,0), whose grid coordinate
`2^32` is outside every range the key can hold, gets the key 4295032833000000 of the
origin (0,0,0) and no error: after `LoadChunk((0,0,0))`, `GetChunk` at the far origin
returns the chunk of (0,0,0) and `LoadChunk` of the far origin changes nothing. -/
theorem C12_far_origin_aliases :
    farOrigin ≠ ⟨0, 0, 0⟩ ∧
    WorldToChunkPosition farOrigin = farOrigin ∧
    ChunkPositionToKey farOrigin = 4295032833000000 ∧
    ChunkPositionToKey ⟨0, 0, 0⟩ = 4295032833000000 ∧
    GetChunk originResident farOrigin = some (loadedChunk ⟨0, 0, 0⟩) ∧
    LoadChunk originResident farOrigin = originResident := by
  decide!

/-- C12, amended: `ChunkPositionToKey` has no error path: for every position, inside
or outside any supported range, it returns a 64-bit key, and `GetChunk` and
`LoadChunk` use the key without a range check, so for two positions with the same key
`GetChunk` returns the same result and `LoadChunk` of one changes nothing once a
chunk is stored under the key. -/
theorem C12_no_range_check (s : WorldStreamer) (a b : Vector3)
    (hkey : ChunkPositionToKey (WorldToChunkPosition a)
      = ChunkPositionToKey (WorldToChunkPosition b)) :
    ChunkPositionToKey (WorldToChunkPosition a) < 2 ^ 64 ∧
    GetChunk s a = GetChunk s b ∧
    ((GetChunk s b).isSome = true → LoadChunk s (WorldToChunkPosition a) = s) := by
  refine ⟨ChunkPositionToKey_lt _, ?_, ?_⟩
  · unfold GetChunk
    dsimp only
    rw [hkey]
  · intro hsome
    unfold GetChunk at hsome
    dsimp only at hsome
    unfold LoadChunk
    dsimp only
    rw [hkey, if_pos hsome]

/-- C12, witness: the far origin (4294967296000,0,0) and the origin (0,0,0), in the
state after `LoadChunk((0,0,0))`. -/
theorem C12_no_range_check_witness :
    ChunkPositionToKey (WorldToChunkPosition farOrigin)
      = ChunkPositionToKey (WorldToChunkPosition ⟨0, 0, 0⟩) ∧
    (ChunkPositionToKey (WorldToChunkPosition farOrigin) < 2 ^ 64 ∧
    GetChunk originResident farOrigin = GetChunk originResident ⟨0, 0, 0⟩ ∧
    ((GetChunk originResident ⟨0, 0, 0⟩).isSome = true →
      LoadChunk originResident (WorldToChunkPosition farOrigin) = originResident)) :=
  ⟨by decide!, C12_no_range_check originResident farOrigin ⟨0, 0, 0⟩ (by decide!)⟩

/-! ## LoadChunk, case by case -/

theorem newChunk_eq (c : Vector3) :
    ({ GenerateChunk { position := c, loaded := false } with
        loaded := true, lastAccessTime := 0 } : WorldChunk) = loadedChunk c := by
  unfold GenerateChunk loadedChunk
  simp

theorem mapSet_of_absent (m : List (Nat × WorldChunk)) (key : Nat) (chunk : WorldChunk)
    (h : m.lookup key = none) : mapSet m key chunk = m ++ [(key, chunk)] := by
  unfold mapSet
  rw [h, if_neg (by simp)]

theorem lookup_append_of_absent (m : List (Nat × WorldChunk)) (key : Nat) (chunk : WorldChunk)
    (h : m.lookup key = none) : (m ++ [(key, chunk)]).lookup key = some chunk := by
  induction m with
  | nil => simp [List.lookup]
  | cons e rest ih =>
    obtain ⟨k, d⟩ := e
    by_cases hk : key = k
    · subst hk
      simp [List.lookup] at h
    · have hne : (key == k) = false := by simpa using hk
      rw [List.lookup_cons, hne] at h
      rw [List.cons_append, List.lookup_cons, hne]
      exact ih h

theorem lookup_append_of_ne (m : List (Nat × WorldChunk)) (key other : Nat) (chunk : WorldChunk)
    (h : other ≠ key) : (m ++ [(key, chunk)]).lookup other = m.lookup other := by
  have hne : (other == key) = false := by simpa using h
  induction m with
  | nil => simp [List.lookup, hne]
  | cons e rest ih =>
    obtain ⟨k, d⟩ := e
    rw [List.cons_append, List.lookup_cons, List.lookup_cons, ih]

theorem LoadChunk_of_absent_under_budget (s : WorldStreamer) (c : Vector3)
    (habsent : mapFind s.m_chunks (ChunkPositionToKey c) = none)
    (hbudget : s.m_currentLoadingJobs < s.m_settings.maxConcurrentLoads) :
    LoadChunk s c
      = { s with
          m_chunks := s.m_chunks ++ [(ChunkPositionToKey c, loadedChunk c)],
          m_currentLoadingJobs := s.m_currentLoadingJobs + 1 } := by
  unfold LoadChunk
  dsimp only
  rw [habsent, if_neg (by simp), if_neg (not_le.mpr hbudget), newChunk_eq,
    mapSet_of_absent _ _ _ habsent]

theorem m_chunks_LoadChunk_under_budget (s : WorldStreamer) (c : Vector3)
    (habsent : mapFind s.m_chunks (ChunkPositionToKey c) = none)
    (hbudget : s.m_currentLoadingJobs < s.m_settings.maxConcurrentLoads) :
    (LoadChunk s c).m_chunks = s.m_chunks ++ [(ChunkPositionToKey c, loadedChunk c)] ∧
    (LoadChunk s c).m_chunksToLoad = s.m_chunksToLoad ∧
    (LoadChunk s c).m_currentLoadingJobs = s.m_currentLoadingJobs + 1 := by
  rw [LoadChunk_of_absent_under_budget s c habsent hbudget]
  exact ⟨rfl, rfl, rfl⟩

/-- For every chunk origin `c` whose key is absent from the store and every state
with in-flight counter below `maxConcurrentLoads`, `LoadChunk(c)` adds exactly one
chunk to the store, under `ChunkPositionToKey(c)`, with position `c`, `loaded` and
`generated` true and the access time 0; every chunk that was already in the store is
unchanged, and so is the pending queue; the in-flight counter goes up by one. -/
theorem LoadChunk_under_budget (s : WorldStreamer) (c : Vector3)
    (habsent : mapFind s.m_chunks (ChunkPositionToKey c) = none)
    (hbudget : s.m_currentLoadingJobs < s.m_settings.maxConcurrentLoads) :
    (LoadChunk s c).m_chunks
      = s.m_chunks ++ [(ChunkPositionToKey c,
          { position := c, loaded := true, generated := true, lastAccessTime := 0 })] ∧
    mapFind (LoadChunk s c).m_chunks (ChunkPositionToKey c)
      = some { position := c, loaded := true, generated := true, lastAccessTime := 0 } ∧
    (∀ key, key ≠ ChunkPositionToKey c →
      mapFind (LoadChunk s c).m_chunks key = mapFind s.m_chunks key) ∧
    (LoadChunk s c).m_chunksToLoad = s.m_chunksToLoad ∧
    (LoadChunk s c).m_currentLoadingJobs = s.m_currentLoadingJobs + 1 := by
  obtain ⟨hchunks, hqueue, hjobs⟩ := m_chunks_LoadChunk_under_budget s c habsent hbudget
  have hnew : loadedChunk c
      = { position := c, loaded := true, generated := true, lastAccessTime := 0 } := rfl
  rw [hnew] at hchunks
  unfold mapFind at habsent ⊢
  rw [hchunks]
  exact ⟨rfl, lookup_append_of_absent _ _ _ habsent,
    fun key hkey => lookup_append_of_ne _ _ _ _ hkey, hqueue, hjobs⟩

/-- C13, at the failing input: one second after the initialisation of a streamer (ten
calls `Update(0.1f)`) the key of (16000,0,0) is absent and the in-flight counter, 1, is
below the budget 4.  `LoadChunk((16000,0,0))` adds the chunk with position
(16000,0,0), `loaded` and `generated`, and with `lastAccessTime = 0`: the chunk is the
same as the one stored by a `LoadChunk` made at the initialisation, and its access
time is the value a new `WorldChunk` has before anything is written to it.  No time
is stamped. -/
theorem C13_access_time_not_stamped :
    oneSecondLater.m_initialized = true ∧
    mapFind oneSecondLater.m_chunks (ChunkPositionToKey ⟨16000, 0, 0⟩) = none ∧
    oneSecondLater.m_currentLoadingJobs = 1 ∧
    oneSecondLater.m_settings.maxConcurrentLoads = 4 ∧
    mapFind (LoadChunk oneSecondLater ⟨16000, 0, 0⟩).m_chunks
        (ChunkPositionToKey ⟨16000, 0, 0⟩)
      = some { position := ⟨16000, 0, 0⟩, loaded := true, generated := true,
               lastAccessTime := 0 } ∧
    mapFind (LoadChunk (freshStreamer { loadRadius := 0 }) ⟨16000, 0, 0⟩).m_chunks
        (ChunkPositionToKey ⟨16000, 0, 0⟩)
      = mapFind (LoadChunk oneSecondLater ⟨16000, 0, 0⟩).m_chunks
          (ChunkPositionToKey ⟨16000, 0, 0⟩) ∧
    ({} : WorldChunk).lastAccessTime = 0 ∧
    (∀ c : Vector3,
      ({ GenerateChunk { position := c, loaded := false } with
          loaded := true, lastAccessTime := 0 } : WorldChunk)
        = { GenerateChunk { position := c, loaded := false } with loaded := true }) := by
  refine ⟨by decide!, by decide!, by decide!, by decide!, by decide!, by decide!, rfl, ?_⟩
  intro c
  unfold GenerateChunk
  simp

/-- C14: for every chunk origin `c` whose key is absent from the store and every
state with in-flight counter at or above `maxConcurrentLoads`, `LoadChunk(c)` appends
`c` at the end of the pending queue `m_chunksToLoad`, the earlier entries keeping
their order, and changes nothing else: the store and the in-flight counter are as
before. -/
theorem C14_LoadChunk_full_budget (s : WorldStreamer) (c : Vector3)
    (habsent : mapFind s.m_chunks (ChunkPositionToKey c) = none)
    (hfull : s.m_currentLoadingJobs ≥ s.m_settings.maxConcurrentLoads) :
    LoadChunk s c = { s with m_chunksToLoad := s.m_chunksToLoad ++ [c] } ∧
    (LoadChunk s c).m_chunksToLoad = s.m_chunksToLoad ++ [c] ∧
    (LoadChunk s c).m_chunks = s.m_chunks ∧
    (LoadChunk s c).m_currentLoadingJobs = s.m_currentLoadingJobs := by
  have hstate : LoadChunk s c = { s with m_chunksToLoad := s.m_chunksToLoad ++ [c] } := by
    unfold LoadChunk
    dsimp only
    rw [habsent, if_neg (by simp), if_pos hfull]
  rw [hstate]
  exact ⟨rfl, rfl, rfl, rfl⟩

/-- C14, witness: `LoadChunk((0,0,0))` on `budgetFourFull`, whose counter 4 has
reached the budget 4 and whose store has no chunk under the key of (0,0,0). -/
theorem C14_LoadChunk_full_budget_witness :
    mapFind budgetFourFull.m_chunks (ChunkPositionToKey ⟨0, 0, 0⟩) = none ∧
    budgetFourFull.m_currentLoadingJobs ≥ budgetFourFull.m_settings.maxConcurrentLoads ∧
    (LoadChunk budgetFourFull ⟨0, 0, 0⟩
      = { budgetFourFull with m_chunksToLoad := budgetFourFull.m_chunksToLoad ++ [⟨0, 0, 0⟩] } ∧
    (LoadChunk budgetFourFull ⟨0, 0, 0⟩).m_chunksToLoad
      = budgetFourFull.m_chunksToLoad ++ [⟨0, 0, 0⟩] ∧
    (LoadChunk budgetFourFull ⟨0, 0, 0⟩).m_chunks = budgetFourFull.m_chunks ∧
    (LoadChunk budgetFourFull ⟨0, 0, 0⟩).m_currentLoadingJobs
      = budgetFourFull.m_currentLoadingJobs) :=
  ⟨by decide!, by decide!,
    C14_LoadChunk_full_budget budgetFourFull ⟨0, 0, 0⟩ (by decide!) (by decide!)⟩

/-- C15: for every chunk origin `c` whose key is already present in the store,
`LoadChunk(c)` leaves the whole streamer state unchanged: the resident chunk is not
replaced or regenerated, the in-flight counter is not incremented and nothing is added
to the pending queue. -/
theorem C15_LoadChunk_present (s : WorldStreamer) (c : Vector3) (chunk : WorldChunk)
    (hpresent : mapFind s.m_chunks (ChunkPositionToKey c) = some chunk) :
    LoadChunk s c = s ∧
    mapFind (LoadChunk s c).m_chunks (ChunkPositionToKey c) = some chunk ∧
    (LoadChunk s c).m_currentLoadingJobs = s.m_currentLoadingJobs ∧
    (LoadChunk s c).m_chunksToLoad = s.m_chunksToLoad := by
  have hstate : LoadChunk s c = s := by
    unfold LoadChunk
    dsimp only
    rw [hpresent, if_pos (by simp)]
  rw [hstate]
  exact ⟨rfl, hpresent, rfl, rfl⟩

/-- C15, witness: `LoadChunk((0,0,0))` on the state in which the chunk of (0,0,0) is
resident. -/
theorem C15_LoadChunk_present_witness :
    mapFind originResident.m_chunks (ChunkPositionToKey ⟨0, 0, 0⟩)
      = some (loadedChunk ⟨0, 0, 0⟩) ∧
    (LoadChunk originResident ⟨0, 0, 0⟩ = originResident ∧
    mapFind (LoadChunk originResident ⟨0, 0, 0⟩).m_chunks (ChunkPositionToKey ⟨0, 0, 0⟩)
      = some (loadedChunk ⟨0, 0, 0⟩) ∧
    (LoadChunk originResident ⟨0, 0, 0⟩).m_currentLoadingJobs
      = originResident.m_currentLoadingJobs ∧
    (LoadChunk originResident ⟨0, 0, 0⟩).m_chunksToLoad = originResident.m_chunksToLoad) :=
  ⟨by decide!,
    C15_LoadChunk_present originResident ⟨0, 0, 0⟩ (loadedChunk ⟨0, 0, 0⟩) (by decide!)⟩

/-! ## GenerateChunk -/

/-- C16: `GenerateChunk` applied to a chunk with `generated = true` returns it
unchanged, so `GenerateChunk(GenerateChunk(c)) = GenerateChunk(c)` for every chunk;
applied to an ungenerated chunk it sets `generated = true` and changes no other
field. -/
theorem C16_GenerateChunk_idempotent (c : WorldChunk) :
    (c.generated = true → GenerateChunk c = c) ∧
    GenerateChunk (GenerateChunk c) = GenerateChunk c ∧
    (c.generated = false → GenerateChunk c = { c with generated := true }) ∧
    (GenerateChunk c).generated = true ∧
    (GenerateChunk c).position = c.position ∧
    (GenerateChunk c).size = c.size ∧
    (GenerateChunk c).loaded = c.loaded ∧
    (GenerateChunk c).renderObjects = c.renderObjects ∧
    (GenerateChunk c).physicsObjects = c.physicsObjects ∧
    (GenerateChunk c).aiAgents = c.aiAgents ∧
    (GenerateChunk c).lastAccessTime = c.lastAccessTime := by
  unfold GenerateChunk
  cases hgen : c.generated
  · simp
  · simp [hgen]

/-! ## UnloadChunk -/

theorem UnloadChunk_of_absent (s : WorldStreamer) (c : Vector3)
    (h : mapFind s.m_chunks (ChunkPositionToKey c) = none) : UnloadChunk s c = s := by
  unfold UnloadChunk
  dsimp only
  rw [h, if_neg (by simp)]

theorem UnloadChunk_of_present (s : WorldStreamer) (c : Vector3) (chunk : WorldChunk)
    (h : mapFind s.m_chunks (ChunkPositionToKey c) = some chunk) :
    UnloadChunk s c
      = { s with m_chunks := mapErase s.m_chunks (ChunkPositionToKey c),
                 m_currentLoadingJobs := max 0 (s.m_currentLoadingJobs - 1) } := by
  unfold UnloadChunk
  dsimp only
  rw [h, if_pos (by simp)]

/-- C19: for every state in which the previous observer position equals the current
one, as after two `SetObserverPosition` calls with the same position,
`PredictiveLoading` issues no load request and leaves the whole streamer state
unchanged. -/
theorem C19_no_prediction_at_rest (s : WorldStreamer)
    (hrest : s.m_observerPosition = s.m_lastObserverPosition) :
    PredictiveLoading s = s ∧
    (∀ (t : WorldStreamer) (position : Vector3),
      (SetObserverPosition (SetObserverPosition t position) position).m_observerPosition
        = (SetObserverPosition (SetObserverPosition t position) position).m_lastObserverPosition ∧
      PredictiveLoading (SetObserverPosition (SetObserverPosition t position) position)
        = SetObserverPosition (SetObserverPosition t position) position) :=
  ⟨PredictiveLoading_at_rest s hrest,
    fun _ _ => ⟨rfl, PredictiveLoading_at_rest _ rfl⟩⟩

/-- C19, witness: the state after `SetObserverPosition((100,0,0))` was called twice
on a streamer with the chunk of (0,0,0) resident. -/
theorem C19_no_prediction_at_rest_witness :
    (SetObserverPosition (SetObserverPosition originResident ⟨100, 0, 0⟩)
        ⟨100, 0, 0⟩).m_observerPosition
      = (SetObserverPosition (SetObserverPosition originResident ⟨100, 0, 0⟩)
        ⟨100, 0, 0⟩).m_lastObserverPosition ∧
    PredictiveLoading
        (SetObserverPosition (SetObserverPosition originResident ⟨100, 0, 0⟩) ⟨100, 0, 0⟩)
      = SetObserverPosition (SetObserverPosition originResident ⟨100, 0, 0⟩) ⟨100, 0, 0⟩ :=
  ⟨by decide!,
    (C19_no_prediction_at_rest
      (SetObserverPosition (SetObserverPosition originResident ⟨100, 0, 0⟩) ⟨100, 0, 0⟩)
      (by decide!)).1⟩

/-! ## CleanupUnusedChunks -/

theorem foldl_mapErase_eq_filter (keys : List Nat) :
    ∀ m : List (Nat × WorldChunk),
      keys.foldl mapErase m = m.filter (fun e => decide (e.1 ∉ keys)) := by
  induction keys with
  | nil => intro m; simp
  | cons k rest ih =>
    intro m
    rw [List.foldl_cons, ih]
    unfold mapErase
    rw [List.filter_filter]
    apply List.filter_congr
    intro e _
    by_cases h1 : e.1 = k <;> by_cases h2 : e.1 ∈ rest <;> simp [h1, h2]

theorem m_chunks_CleanupUnusedChunks_eq_filter (s : WorldStreamer)
    (hnodup : (s.m_chunks.map Prod.fst).Nodup) :
    (CleanupUnusedChunks s).m_chunks
      = s.m_chunks.filter (fun e => decide (e.2.lastAccessTime ≤ 300)) := by
  rw [m_chunks_CleanupUnusedChunks, foldl_mapErase_eq_filter]
  apply List.filter_congr
  intro e he
  by_cases hstale : e.2.lastAccessTime > 300
  · have hmem : e.1 ∈ (s.m_chunks.filter fun e => e.2.lastAccessTime > 300).map Prod.fst :=
      List.mem_map.mpr ⟨e, List.mem_filter.mpr ⟨he, by simpa using hstale⟩, rfl⟩
    have hnot : ¬ e.2.lastAccessTime ≤ 300 := not_le.mpr hstale
    simp [hmem, hnot]
  · have hnot : e.1 ∉ (s.m_chunks.filter fun e => e.2.lastAccessTime > 300).map Prod.fst := by
      intro hmem
      obtain ⟨e2, he2, hfst⟩ := List.mem_map.mp hmem
      obtain ⟨he2m, he2stale⟩ := List.mem_filter.mp he2
      have heq : e2 = e := (List.inj_on_of_nodup_map hnodup) he2m he hfst
      rw [heq] at he2stale
      exact hstale (by simpa using he2stale)
    have hle : e.2.lastAccessTime ≤ 300 := not_lt.mp hstale
    simp [hnot, hle]

/-- C20, at the failing input: the reaper compares the stored `lastAccessTime`
itself with 300 and not the age `now - lastAccessTime`.  At `now = 1000` the chunk that `LoadChunk((0,0,0))` stored with `lastAccessTime = 0` is
loaded and has age 1000 > 300, and `CleanupUnusedChunks` leaves it resident; at
`now = 400` the chunk of `staleExample` with `lastAccessTime = 301` has age 99 <= 300,
and `CleanupUnusedChunks` removes it. -/
theorem C20_age_not_tested :
    (4295032833000000, loadedChunk ⟨0, 0, 0⟩) ∈ originResident.m_chunks ∧
    (loadedChunk ⟨0, 0, 0⟩).loaded = true ∧
    (1000 : ℚ) - (loadedChunk ⟨0, 0, 0⟩).lastAccessTime > 300 ∧
    (4295032833000000, loadedChunk ⟨0, 0, 0⟩) ∈ (CleanupUnusedChunks originResident).m_chunks ∧
    (4295032833000000, { loadedChunk ⟨0, 0, 0⟩ with lastAccessTime := 301 })
      ∈ staleExample.m_chunks ∧
    (400 : ℚ) - 301 ≤ 300 ∧
    (4295032833000000, { loadedChunk ⟨0, 0, 0⟩ with lastAccessTime := 301 })
      ∉ (CleanupUnusedChunks staleExample).m_chunks := by
  decide!

/-! ## The reaper and the unload path -/

/-- C21, at the failing input: in `staleExample` (in-flight counter 2) the chunk
under the key of (0,0,0) is stale (`lastAccessTime = 301`).  `CleanupUnusedChunks`
and `UnloadChunk((0,0,0))` leave the same store and the same pending queue, but
`UnloadChunk` lowers the in-flight counter to 1 and `CleanupUnusedChunks` leaves it
at 2. -/
theorem C21_reaper_keeps_counter :
    mapFind staleExample.m_chunks (ChunkPositionToKey ⟨0, 0, 0⟩)
      = some { loadedChunk ⟨0, 0, 0⟩ with lastAccessTime := 301 } ∧
    (CleanupUnusedChunks staleExample).m_chunks
      = (UnloadChunk staleExample ⟨0, 0, 0⟩).m_chunks ∧
    (CleanupUnusedChunks staleExample).m_chunksToLoad
      = (UnloadChunk staleExample ⟨0, 0, 0⟩).m_chunksToLoad ∧
    staleExample.m_currentLoadingJobs = 2 ∧
    (UnloadChunk staleExample ⟨0, 0, 0⟩).m_currentLoadingJobs = 1 ∧
    (CleanupUnusedChunks staleExample).m_currentLoadingJobs = 2 ∧
    CleanupUnusedChunks staleExample ≠ UnloadChunk staleExample ⟨0, 0, 0⟩ := by
  decide!

/-! ## Initialize and Shutdown -/

/-- The method `Initialize` returns true and only sets the initialised flag: the
in-flight counter and the tick timer are what they were before the call.  Both are 0
after `Initialize` on a freshly constructed streamer. -/
theorem Initialize_sets_flag_only (s : WorldStreamer) :
    (Initialize s).2 = true ∧
    (Initialize s).1 = { s with m_initialized := true } ∧
    (Initialize s).1.m_currentLoadingJobs = s.m_currentLoadingJobs ∧
    (Initialize s).1.m_streamingUpdateTimer = s.m_streamingUpdateTimer ∧
    (Initialize {}).1.m_currentLoadingJobs = 0 ∧
    (Initialize {}).1.m_streamingUpdateTimer = 0 :=
  ⟨rfl, rfl, rfl, rfl, rfl, rfl⟩

/-- C22, at the failing input: a streamer with the budget 4 that loaded four chunks
in a tick, got an `Update` of 0.0625 s, was shut down and initialised again.
`Initialize` returns true; the store is empty, but the in-flight counter is still 4,
the budget, and the timer is still 0.0625: `Shutdown` emptied the store without
lowering the counter and `Initialize` resets nothing.  `LoadChunk((0,0,0))` on the
re-initialised streamer starts no load: the request goes to the pending queue. -/
theorem C22_counters_survive_reinitialise :
    (Initialize (Shutdown (Update
      (tick (freshStreamer budgetFourSettings)) (1 / 16)))).2 = true ∧
    (tick (freshStreamer budgetFourSettings)).m_chunks.length = 4 ∧
    (tick (freshStreamer budgetFourSettings)).m_currentLoadingJobs = 4 ∧
    reinitialisedStreamer.m_initialized = true ∧
    reinitialisedStreamer.m_chunks = [] ∧
    reinitialisedStreamer.m_currentLoadingJobs = 4 ∧
    reinitialisedStreamer.m_settings.maxConcurrentLoads = 4 ∧
    reinitialisedStreamer.m_streamingUpdateTimer = 1 / 16 ∧
    (LoadChunk reinitialisedStreamer ⟨0, 0, 0⟩).m_chunks = [] ∧
    (LoadChunk reinitialisedStreamer ⟨0, 0, 0⟩).m_chunksToLoad
      = reinitialisedStreamer.m_chunksToLoad ++ [⟨0, 0, 0⟩] := by
  decide!

/-- C23: for every initialised state, after `Shutdown` no chunk is resident
(`GetLoadedChunks` is empty and `GetChunk` finds nothing for every position), the
pending load and unload lists are empty, and the module is no longer initialised. -/
theorem C23_Shutdown_empties (s : WorldStreamer) (hinit : s.m_initialized = true) :
    (Shutdown s).m_chunks = [] ∧
    GetLoadedChunks (Shutdown s) = [] ∧
    (∀ worldPosition : Vector3, GetChunk (Shutdown s) worldPosition = none) ∧
    (Shutdown s).m_chunksToLoad = [] ∧
    (Shutdown s).m_chunksToUnload = [] ∧
    (Shutdown s).m_initialized = false := by
  have hstate : Shutdown s
      = { s with m_chunks := [], m_chunksToLoad := [], m_chunksToUnload := [],
                 m_initialized := false } := by
    unfold Shutdown
    rw [hinit]
    rfl
  rw [hstate]
  exact ⟨rfl, rfl, fun _ => rfl, rfl, rfl, rfl⟩

/-- C23, witness: the initialised state in which the chunks of (0,0,0) and
(16000,0,0) are resident. -/
theorem C23_Shutdown_empties_witness :
    twoResidentChunks.m_initialized = true ∧
    twoResidentChunks.m_chunks ≠ [] ∧
    ((Shutdown twoResidentChunks).m_chunks = [] ∧
    GetLoadedChunks (Shutdown twoResidentChunks) = [] ∧
    (∀ worldPosition : Vector3, GetChunk (Shutdown twoResidentChunks) worldPosition = none) ∧
    (Shutdown twoResidentChunks).m_chunksToLoad = [] ∧
    (Shutdown twoResidentChunks).m_chunksToUnload = [] ∧
    (Shutdown twoResidentChunks).m_initialized = false) :=
  ⟨by decide!, by decide!, C23_Shutdown_empties twoResidentChunks (by decide!)⟩

/-! ## The setters -/

/-- C25: `SetObserverPosition(p)` only sets the previous observer position to the
former current one and the current one to `p`, and `SetStreamingSettings` only
replaces the settings; neither changes the chunk store, the pending queue, the
in-flight counter or the tick timer, so `GetChunk` and `GetLoadedChunks` answer as
before the call. -/
theorem C25_setters_deferred (s : WorldStreamer) (p : Vector3) (settings : StreamingSettings) :
    (SetObserverPosition s p
        = { s with m_lastObserverPosition := s.m_observerPosition, m_observerPosition := p } ∧
      (SetObserverPosition s p).m_settings = s.m_settings ∧
      (SetObserverPosition s p).m_chunks = s.m_chunks ∧
      (SetObserverPosition s p).m_chunksToLoad = s.m_chunksToLoad ∧
      (SetObserverPosition s p).m_currentLoadingJobs = s.m_currentLoadingJobs ∧
      (SetObserverPosition s p).m_streamingUpdateTimer = s.m_streamingUpdateTimer ∧
      GetLoadedChunks (SetObserverPosition s p) = GetLoadedChunks s ∧
      (∀ q : Vector3, GetChunk (SetObserverPosition s p) q = GetChunk s q)) ∧
    (SetStreamingSettings s settings = { s with m_settings := settings } ∧
      (SetStreamingSettings s settings).m_observerPosition = s.m_observerPosition ∧
      (SetStreamingSettings s settings).m_lastObserverPosition = s.m_lastObserverPosition ∧
      (SetStreamingSettings s settings).m_chunks = s.m_chunks ∧
      (SetStreamingSettings s settings).m_chunksToLoad = s.m_chunksToLoad ∧
      (SetStreamingSettings s settings).m_currentLoadingJobs = s.m_currentLoadingJobs ∧
      (SetStreamingSettings s settings).m_streamingUpdateTimer = s.m_streamingUpdateTimer ∧
      GetLoadedChunks (SetStreamingSettings s settings) = GetLoadedChunks s ∧
      (∀ q : Vector3, GetChunk (SetStreamingSettings s settings) q = GetChunk s q)) :=
  ⟨⟨rfl, rfl, rfl, rfl, rfl, rfl, rfl, fun _ => rfl⟩,
    ⟨rfl, rfl, rfl, rfl, rfl, rfl, rfl, rfl, fun _ => rfl⟩⟩

/-! ## GetLoadedChunks -/

theorem count_map_snd_filter_loaded (m : List (Nat × WorldChunk)) (c : WorldChunk) :
    ((m.filter fun e => e.2.loaded).map Prod.snd).count c
      = if c.loaded = true then (m.map Prod.snd).count c else 0 := by
  induction m with
  | nil => simp
  | cons e rest ih =>
    obtain ⟨k, d⟩ := e
    by_cases hd : d.loaded = true
    · rw [List.filter_cons_of_pos (by simpa using hd), List.map_cons, List.map_cons,
        List.count_cons, List.count_cons, ih]
      by_cases hc : c.loaded = true
      · simp [hc]
      · have hne : ¬ (d = c) := fun h => hc (h ▸ hd)
        simp [hc, hne]
    · rw [List.filter_cons_of_neg (by simpa using hd), List.map_cons, List.count_cons, ih]
      by_cases hc : c.loaded = true
      · have hne : ¬ (d = c) := fun h => hd (h ▸ hc)
        simp [hc, hne]
      · simp [hc]

/-- C26: for every state, the result of `GetLoadedChunks` contains each chunk of the
store whose `loaded` flag is true exactly once for each entry of the store that holds
it, and contains no chunk whose `loaded` flag is false. -/
theorem C26_GetLoadedChunks (s : WorldStreamer) :
    (∀ c : WorldChunk, (GetLoadedChunks s).count c
      = if c.loaded = true then (s.m_chunks.map Prod.snd).count c else 0) ∧
    (∀ c ∈ GetLoadedChunks s, c.loaded = true) ∧
    (∀ e ∈ s.m_chunks, e.2.loaded = true → e.2 ∈ GetLoadedChunks s) ∧
    (GetLoadedChunks s).length = (s.m_chunks.filter fun e => e.2.loaded).length := by
  unfold GetLoadedChunks
  refine ⟨fun c => count_map_snd_filter_loaded s.m_chunks c, ?_, ?_, ?_⟩
  · intro c hc
    obtain ⟨e, he, hec⟩ := List.mem_map.mp hc
    rw [← hec]
    exact (List.mem_filter.mp he).2
  · intro e he hloaded
    exact List.mem_map.mpr ⟨e, List.mem_filter.mpr ⟨he, hloaded⟩, rfl⟩
  · rw [List.length_map]

/-! ## The passes do not read the timer -/

theorem LoadChunk_setTimer (s : WorldStreamer) (t : ℚ) (p : Vector3) :
    LoadChunk (setTimer s t) p = setTimer (LoadChunk s p) t := by
  unfold LoadChunk setTimer
  dsimp only
  split_ifs <;> rfl

theorem UnloadChunk_setTimer (s : WorldStreamer) (t : ℚ) (p : Vector3) :
    UnloadChunk (setTimer s t) p = setTimer (UnloadChunk s p) t := by
  unfold UnloadChunk setTimer
  dsimp only
  split_ifs <;> rfl

theorem foldl_LoadChunk_setTimer (t : ℚ) (requests : List Vector3) :
    ∀ s : WorldStreamer,
      requests.foldl LoadChunk (setTimer s t) = setTimer (requests.foldl LoadChunk s) t := by
  induction requests with
  | nil => intro s; rfl
  | cons c rest ih => intro s; rw [List.foldl_cons, List.foldl_cons, LoadChunk_setTimer, ih]

theorem foldl_UnloadChunk_setTimer (t : ℚ) (keys : List Nat) :
    ∀ s : WorldStreamer,
      keys.foldl (fun st key => UnloadChunk st (KeyToChunkPosition key)) (setTimer s t)
        = setTimer (keys.foldl (fun st key => UnloadChunk st (KeyToChunkPosition key)) s) t := by
  induction keys with
  | nil => intro s; rfl
  | cons k rest ih =>
    intro s
    rw [List.foldl_cons, List.foldl_cons, UnloadChunk_setTimer, ih]

theorem loadPass_setTimer (s : WorldStreamer) (t : ℚ) :
    loadPass (setTimer s t) = setTimer (loadPass s) t := by
  unfold loadPass
  exact foldl_LoadChunk_setTimer t _ s

theorem chunksToUnload_setTimer (s : WorldStreamer) (t : ℚ) :
    chunksToUnload (setTimer s t) = chunksToUnload s := rfl

theorem unloadPass_setTimer (s : WorldStreamer) (t : ℚ) :
    unloadPass (setTimer s t) = setTimer (unloadPass s) t := by
  unfold unloadPass
  rw [chunksToUnload_setTimer]
  exact foldl_UnloadChunk_setTimer t _ s

theorem UpdateStreaming_setTimer (s : WorldStreamer) (t : ℚ) :
    UpdateStreaming (setTimer s t) = setTimer (UpdateStreaming s) t := by
  unfold UpdateStreaming
  rw [loadPass_setTimer, unloadPass_setTimer]

theorem PredictiveLoading_setTimer (s : WorldStreamer) (t : ℚ) :
    PredictiveLoading (setTimer s t) = setTimer (PredictiveLoading s) t := by
  unfold PredictiveLoading
  dsimp only
  have h1 : (setTimer s t).m_observerPosition = s.m_observerPosition := rfl
  have h2 : (setTimer s t).m_lastObserverPosition = s.m_lastObserverPosition := rfl
  have h3 : (setTimer s t).m_settings = s.m_settings := rfl
  rw [h1, h2, h3]
  split_ifs
  · exact LoadChunk_setTimer s t _
  · rfl

theorem CleanupUnusedChunks_setTimer (s : WorldStreamer) (t : ℚ) :
    CleanupUnusedChunks (setTimer s t) = setTimer (CleanupUnusedChunks s) t := rfl

theorem setTimer_setTimer (s : WorldStreamer) (t u : ℚ) :
    setTimer (setTimer s t) u = setTimer s u := rfl

theorem streamingPasses_setTimer (s : WorldStreamer) (t : ℚ) :
    streamingPasses (setTimer s t) = setTimer (streamingPasses s) t := by
  unfold streamingPasses
  dsimp only
  rw [UpdateStreaming_setTimer]
  have h3 : (setTimer (UpdateStreaming s) t).m_settings = (UpdateStreaming s).m_settings := rfl
  rw [h3]
  split_ifs
  · rw [PredictiveLoading_setTimer, CleanupUnusedChunks_setTimer]
  · rw [CleanupUnusedChunks_setTimer]

theorem streamingPasses_eq (s : WorldStreamer) :
    streamingPasses s
      = CleanupUnusedChunks
          (if s.m_settings.enablePredictiveStreaming = true
            then PredictiveLoading (UpdateStreaming s) else UpdateStreaming s) := by
  unfold streamingPasses
  dsimp only
  rw [m_settings_eq_of_inputs (inputs_UpdateStreaming s)]

/-- The timer sum is rounded before it is compared: from the timer
13421772/134217728 and `deltaTime = 5/2^30` the exact sum is below the period `0.1f`,
the binary32 sum is the period, and `Update` runs the passes and resets the timer. -/
theorem Update_compares_rounded_sum :
    timerBelowPeriod.m_streamingUpdateTimer + 5 / 1073741824 < tickPeriod ∧
    f32 (timerBelowPeriod.m_streamingUpdateTimer + 5 / 1073741824) = tickPeriod ∧
    (Update timerBelowPeriod (5 / 1073741824)).m_streamingUpdateTimer = 0 := by
  decide!

/-- C24: for every initialised state and `deltaTime`, `Update(deltaTime)` adds
`deltaTime` to the timer (the sum is a binary32 number, like the tick period `0.1f`);
if the sum is below the tick period nothing else changes; if it reaches the period
the resulting state is that of `UpdateStreaming`, then `PredictiveLoading` (only when
`enablePredictiveStreaming` is set), then `CleanupUnusedChunks`, applied in that
order, with the timer reset to 0. -/
theorem C24_tick_cadence_and_order (s : WorldStreamer) (deltaTime : ℚ)
    (hinit : s.m_initialized = true) :
    (f32 (s.m_streamingUpdateTimer + deltaTime) < tickPeriod →
      Update s deltaTime
        = { s with m_streamingUpdateTimer := f32 (s.m_streamingUpdateTimer + deltaTime) }) ∧
    (f32 (s.m_streamingUpdateTimer + deltaTime) ≥ tickPeriod →
      Update s deltaTime
        = setTimer
            (CleanupUnusedChunks
              (if s.m_settings.enablePredictiveStreaming = true
                then PredictiveLoading (UpdateStreaming s) else UpdateStreaming s)) 0 ∧
      (Update s deltaTime).m_streamingUpdateTimer = 0) := by
  have hupd : Update s deltaTime
      = if f32 (s.m_streamingUpdateTimer + deltaTime) ≥ tickPeriod
          then setTimer (streamingPasses s) 0
          else setTimer s (f32 (s.m_streamingUpdateTimer + deltaTime)) := by
    unfold Update
    dsimp only
    have htimer : (setTimer s (f32 (s.m_streamingUpdateTimer + deltaTime))).m_streamingUpdateTimer
        = f32 (s.m_streamingUpdateTimer + deltaTime) := rfl
    rw [hinit, htimer, if_neg (by simp), streamingPasses_setTimer, setTimer_setTimer]
  constructor
  · intro hlt
    rw [hupd, if_neg (not_le.mpr hlt)]
    rfl
  · intro hge
    rw [hupd, if_pos hge, streamingPasses_eq]
    exact ⟨rfl, rfl⟩

/-- C24, witness: the initialised state `movingBudgetFour`, whose observer moved, with
the timer at 0.  With `deltaTime = 0.0625` the sum is below the period and only the
timer changes.  With `deltaTime = 0.1f` the sum reaches the period and the passes
run in the order `UpdateStreaming`, `PredictiveLoading`, `CleanupUnusedChunks`; the
order shows in the state: the main pass uses up the budget, so the predicted chunk
(0,0,0) is left on the pending queue, while with `PredictiveLoading` first it would
be resident. -/
theorem C24_tick_cadence_and_order_witness :
    movingBudgetFour.m_initialized = true ∧
    (f32 (movingBudgetFour.m_streamingUpdateTimer + 1 / 16) < tickPeriod ∧
      Update movingBudgetFour (1 / 16)
        = { movingBudgetFour with
            m_streamingUpdateTimer := f32 (movingBudgetFour.m_streamingUpdateTimer + 1 / 16) }) ∧
    (f32 (movingBudgetFour.m_streamingUpdateTimer + tickPeriod) ≥ tickPeriod ∧
      (Update movingBudgetFour tickPeriod
        = setTimer
            (CleanupUnusedChunks
              (if movingBudgetFour.m_settings.enablePredictiveStreaming = true
                then PredictiveLoading (UpdateStreaming movingBudgetFour)
                else UpdateStreaming movingBudgetFour)) 0 ∧
      (Update movingBudgetFour tickPeriod).m_streamingUpdateTimer = 0)) ∧
    movingBudgetFour.m_settings.enablePredictiveStreaming = true ∧
    GetChunk (Update movingBudgetFour tickPeriod) ⟨0, 0, 0⟩ = none ∧
    (⟨0, 0, 0⟩ : Vector3) ∈ (Update movingBudgetFour tickPeriod).m_chunksToLoad ∧
    GetChunk (CleanupUnusedChunks (UpdateStreaming (PredictiveLoading movingBudgetFour)))
        ⟨0, 0, 0⟩
      = some (loadedChunk ⟨0, 0, 0⟩) :=
  ⟨by decide!,
    ⟨by decide!, (C24_tick_cadence_and_order movingBudgetFour (1 / 16) (by decide!)).1
      (by decide!)⟩,
    ⟨by decide!, (C24_tick_cadence_and_order movingBudgetFour tickPeriod (by decide!)).2
      (by decide!)⟩,
    by decide!, by decide!, by decide!, by decide!⟩

/-! ## Residency and the budget -/

theorem length_mapErase_le (m : List (Nat × WorldChunk)) (key : Nat) :
    (mapErase m key).length ≤ m.length :=
  List.length_filter_le _ _

theorem length_mapErase_lt (m : List (Nat × WorldChunk)) (key : Nat) (chunk : WorldChunk)
    (h : m.lookup key = some chunk) : (mapErase m key).length < m.length := by
  induction m with
  | nil => simp at h
  | cons e rest ih =>
    obtain ⟨k, d⟩ := e
    unfold mapErase at ih ⊢
    by_cases hk : key = k
    · subst hk
      rw [List.filter_cons_of_neg (by simp), List.length_cons]
      exact Nat.lt_succ_of_le (List.length_filter_le _ _)
    · have hne : (key == k) = false := by simpa using hk
      rw [List.lookup_cons, hne] at h
      have hkk : (k != key) = true := by simpa using Ne.symm hk
      rw [List.filter_cons_of_pos (by simpa using hkk), List.length_cons, List.length_cons]
      exact Nat.succ_lt_succ (ih h)

theorem length_foldl_mapErase_le (keys : List Nat) :
    ∀ m : List (Nat × WorldChunk), (keys.foldl mapErase m).length ≤ m.length := by
  induction keys with
  | nil => intro m; exact le_refl _
  | cons k rest ih =>
    intro m
    exact le_trans (ih _) (length_mapErase_le m k)

theorem residencyCapped_setTimer {m : Int} {s : WorldStreamer} (h : ResidencyCapped m s)
    (t : ℚ) : ResidencyCapped m (setTimer s t) := h

theorem residencyCapped_LoadChunk {m : Int} {s : WorldStreamer} (h : ResidencyCapped m s)
    (p : Vector3) : ResidencyCapped m (LoadChunk s p) := by
  obtain ⟨hm, hlen, hjobs⟩ := h
  cases hfind : mapFind s.m_chunks (ChunkPositionToKey p) with
  | some chunk =>
    have hstate : LoadChunk s p = s := by
      unfold LoadChunk
      dsimp only
      rw [hfind, if_pos (by simp)]
    rw [hstate]
    exact ⟨hm, hlen, hjobs⟩
  | none =>
    by_cases hfull : s.m_currentLoadingJobs ≥ s.m_settings.maxConcurrentLoads
    · have hstate : LoadChunk s p = { s with m_chunksToLoad := s.m_chunksToLoad ++ [p] } := by
        unfold LoadChunk
        dsimp only
        rw [hfind, if_neg (by simp), if_pos hfull]
      rw [hstate]
      exact ⟨hm, hlen, hjobs⟩
    · have hlt : s.m_currentLoadingJobs < s.m_settings.maxConcurrentLoads := not_le.mp hfull
      rw [LoadChunk_of_absent_under_budget s p hfind hlt]
      refine ⟨hm, ?_, ?_⟩
      · show ((s.m_chunks ++ [(ChunkPositionToKey p, loadedChunk p)]).length : Int)
            ≤ s.m_currentLoadingJobs + 1
        rw [List.length_append, List.length_singleton]
        push_cast
        omega
      · show s.m_currentLoadingJobs + 1 ≤ m
        omega

theorem residencyCapped_UnloadChunk {m : Int} {s : WorldStreamer} (h : ResidencyCapped m s)
    (p : Vector3) : ResidencyCapped m (UnloadChunk s p) := by
  obtain ⟨hm, hlen, hjobs⟩ := h
  cases hfind : mapFind s.m_chunks (ChunkPositionToKey p) with
  | none =>
    rw [UnloadChunk_of_absent s p hfind]
    exact ⟨hm, hlen, hjobs⟩
  | some chunk =>
    rw [UnloadChunk_of_present s p chunk hfind]
    have hlt := length_mapErase_lt s.m_chunks (ChunkPositionToKey p) chunk hfind
    refine ⟨hm, ?_, ?_⟩
    · show ((mapErase s.m_chunks (ChunkPositionToKey p)).length : Int)
          ≤ max 0 (s.m_currentLoadingJobs - 1)
      apply le_max_of_le_right
      omega
    · show max 0 (s.m_currentLoadingJobs - 1) ≤ m
      apply max_le <;> omega

theorem residencyCapped_foldl_LoadChunk {m : Int} (requests : List Vector3) :
    ∀ {s : WorldStreamer}, ResidencyCapped m s →
      ResidencyCapped m (requests.foldl LoadChunk s) := by
  induction requests with
  | nil => intro s h; exact h
  | cons c rest ih => intro s h; exact ih (residencyCapped_LoadChunk h c)

theorem residencyCapped_foldl_UnloadChunk {m : Int} (keys : List Nat) :
    ∀ {s : WorldStreamer}, ResidencyCapped m s →
      ResidencyCapped m
        (keys.foldl (fun st key => UnloadChunk st (KeyToChunkPosition key)) s) := by
  induction keys with
  | nil => intro s h; exact h
  | cons k rest ih => intro s h; exact ih (residencyCapped_UnloadChunk h _)

theorem residencyCapped_UpdateStreaming {m : Int} {s : WorldStreamer}
    (h : ResidencyCapped m s) : ResidencyCapped m (UpdateStreaming s) := by
  unfold UpdateStreaming unloadPass loadPass
  exact residencyCapped_foldl_UnloadChunk _ (residencyCapped_foldl_LoadChunk _ h)

theorem residencyCapped_PredictiveLoading {m : Int} {s : WorldStreamer}
    (h : ResidencyCapped m s) :
    ResidencyCapped m (PredictiveLoading s) := by
  unfold PredictiveLoading
  dsimp only
  split_ifs
  · exact residencyCapped_LoadChunk h _
  · exact h

theorem residencyCapped_CleanupUnusedChunks {m : Int} {s : WorldStreamer}
    (h : ResidencyCapped m s) : ResidencyCapped m (CleanupUnusedChunks s) := by
  obtain ⟨hm, hlen, hjobs⟩ := h
  refine ⟨hm, ?_, hjobs⟩
  rw [m_chunks_CleanupUnusedChunks]
  have hle := length_foldl_mapErase_le
    ((s.m_chunks.filter fun e => e.2.lastAccessTime > 300).map Prod.fst) s.m_chunks
  have hjobs2 : (CleanupUnusedChunks s).m_currentLoadingJobs = s.m_currentLoadingJobs := rfl
  rw [hjobs2]
  omega

theorem residencyCapped_streamingPasses {m : Int} {s : WorldStreamer}
    (h : ResidencyCapped m s) :
    ResidencyCapped m (streamingPasses s) := by
  unfold streamingPasses
  dsimp only
  split_ifs
  · exact residencyCapped_CleanupUnusedChunks
      (residencyCapped_PredictiveLoading (residencyCapped_UpdateStreaming h))
  · exact residencyCapped_CleanupUnusedChunks (residencyCapped_UpdateStreaming h)

theorem residencyCapped_Update {m : Int} {s : WorldStreamer} (h : ResidencyCapped m s)
    (deltaTime : ℚ) : ResidencyCapped m (Update s deltaTime) := by
  unfold Update
  dsimp only
  have hs := residencyCapped_setTimer h (f32 (s.m_streamingUpdateTimer + deltaTime))
  split_ifs
  · exact h
  · exact residencyCapped_setTimer (residencyCapped_streamingPasses hs) 0
  · exact hs

theorem residencyCapped_Shutdown {m : Int} {s : WorldStreamer} (h : ResidencyCapped m s) :
    ResidencyCapped m (Shutdown s) := by
  obtain ⟨hm, hlen, hjobs⟩ := h
  unfold Shutdown
  split_ifs
  · exact ⟨hm, hlen, hjobs⟩
  · refine ⟨hm, ?_, hjobs⟩
    show ((([] : List (Nat × WorldChunk)).length : Nat) : Int) ≤ s.m_currentLoadingJobs
    have h0 : (0 : Int) ≤ (s.m_chunks.length : Int) := Int.natCast_nonneg _
    simp only [List.length_nil, Nat.cast_zero]
    omega

theorem residencyCapped_apply {m : Int} {s : WorldStreamer} (h : ResidencyCapped m s)
    (c : Call) (hc : c.keepsSettings = true) :
    ResidencyCapped m (c.apply s) := by
  cases c with
  | Initialize => exact h
  | Update deltaTime => exact residencyCapped_Update h deltaTime
  | Shutdown => exact residencyCapped_Shutdown h
  | SetObserverPosition position => exact h
  | SetStreamingSettings settings => simp [Call.keepsSettings] at hc
  | LoadChunk chunkPosition => exact residencyCapped_LoadChunk h chunkPosition
  | UnloadChunk chunkPosition => exact residencyCapped_UnloadChunk h chunkPosition

theorem residencyCapped_run {m : Int} (calls : List Call) :
    ∀ {s : WorldStreamer}, ResidencyCapped m s → (∀ c ∈ calls, c.keepsSettings = true) →
      ResidencyCapped m (run s calls) := by
  induction calls with
  | nil => intro s h _; exact h
  | cons c rest ih =>
    intro s h hcalls
    exact ih (residencyCapped_apply h c (hcalls c (List.mem_cons_self _ _)))
      (fun d hd => hcalls d (List.mem_cons_of_mem _ hd))

/-- C27: starting from a freshly constructed streamer that was given settings with
`maxConcurrentLoads = m`, `0 ≤ m`, after every finite sequence of `Initialize`,
`Update`, `LoadChunk`, `UnloadChunk`, `SetObserverPosition` and `Shutdown` calls the
number of chunks in the store is at most the in-flight counter, which is at most `m`;
the store never holds more than `m` chunks. -/
theorem C27_residency_capped (settings : StreamingSettings)
    (calls : List Call)
    (hm : 0 ≤ settings.maxConcurrentLoads)
    (hcalls : ∀ c ∈ calls, c.keepsSettings = true) :
    ((run (SetStreamingSettings {} settings) calls).m_chunks.length : Int)
      ≤ (run (SetStreamingSettings {} settings) calls).m_currentLoadingJobs ∧
    (run (SetStreamingSettings {} settings) calls).m_currentLoadingJobs
      ≤ settings.maxConcurrentLoads ∧
    ((run (SetStreamingSettings {} settings) calls).m_chunks.length : Int)
      ≤ settings.maxConcurrentLoads := by
  have h0 : ResidencyCapped settings.maxConcurrentLoads (SetStreamingSettings {} settings) :=
    ⟨rfl, le_refl _, hm⟩
  have h := residencyCapped_run calls h0 hcalls
  exact ⟨h.2.1, h.2.2, le_trans h.2.1 h.2.2⟩

/-- C27, witness: the budget 4 with load radius 1500 and a sequence of calls with a
shutdown and a second initialisation. -/
theorem C27_residency_capped_witness :
    (0 : Int) ≤ budgetFourSettings.maxConcurrentLoads ∧
    (∀ c ∈ lifecycleCalls, c.keepsSettings = true) ∧
    (((run (SetStreamingSettings {} budgetFourSettings)
        lifecycleCalls).m_chunks.length : Int)
      ≤ (run (SetStreamingSettings {} budgetFourSettings)
        lifecycleCalls).m_currentLoadingJobs ∧
    (run (SetStreamingSettings {} budgetFourSettings)
        lifecycleCalls).m_currentLoadingJobs ≤ budgetFourSettings.maxConcurrentLoads ∧
    ((run (SetStreamingSettings {} budgetFourSettings)
        lifecycleCalls).m_chunks.length : Int) ≤ budgetFourSettings.maxConcurrentLoads) :=
  ⟨by decide, by decide,
    C27_residency_capped budgetFourSettings lifecycleCalls (by decide)
      (by decide)⟩

/-! ## Chunks stay as they were loaded -/

theorem stampedAtLoad_mapErase {m : List (Nat × WorldChunk)} (h : StampedAtLoad m)
    (key : Nat) : StampedAtLoad (mapErase m key) :=
  fun e he => h e (List.mem_filter.mp he).1

theorem stampedAtLoad_foldl_mapErase (keys : List Nat) :
    ∀ {m : List (Nat × WorldChunk)}, StampedAtLoad m →
      StampedAtLoad (keys.foldl mapErase m) := by
  induction keys with
  | nil => intro m h; exact h
  | cons k rest ih => intro m h; exact ih (stampedAtLoad_mapErase h k)

theorem stampedAtLoad_LoadChunk {s : WorldStreamer} (h : StampedAtLoad s.m_chunks)
    (p : Vector3) : StampedAtLoad (LoadChunk s p).m_chunks := by
  cases hfind : mapFind s.m_chunks (ChunkPositionToKey p) with
  | some chunk =>
    have hstate : LoadChunk s p = s := by
      unfold LoadChunk
      dsimp only
      rw [hfind, if_pos (by simp)]
    rw [hstate]
    exact h
  | none =>
    by_cases hfull : s.m_currentLoadingJobs ≥ s.m_settings.maxConcurrentLoads
    · have hstate : LoadChunk s p = { s with m_chunksToLoad := s.m_chunksToLoad ++ [p] } := by
        unfold LoadChunk
        dsimp only
        rw [hfind, if_neg (by simp), if_pos hfull]
      rw [hstate]
      exact h
    · rw [LoadChunk_of_absent_under_budget s p hfind (not_le.mp hfull)]
      intro e he
      have he2 : e ∈ s.m_chunks ++ [(ChunkPositionToKey p, loadedChunk p)] := he
      rcases List.mem_append.mp he2 with hold | hnew
      · exact h e hold
      · rw [List.mem_singleton.mp hnew]
        exact ⟨rfl, rfl, rfl⟩

theorem stampedAtLoad_UnloadChunk {s : WorldStreamer} (h : StampedAtLoad s.m_chunks)
    (p : Vector3) : StampedAtLoad (UnloadChunk s p).m_chunks := by
  cases hfind : mapFind s.m_chunks (ChunkPositionToKey p) with
  | none =>
    rw [UnloadChunk_of_absent s p hfind]
    exact h
  | some chunk =>
    rw [UnloadChunk_of_present s p chunk hfind]
    exact stampedAtLoad_mapErase h _

theorem stampedAtLoad_foldl_LoadChunk (requests : List Vector3) :
    ∀ {s : WorldStreamer}, StampedAtLoad s.m_chunks →
      StampedAtLoad (requests.foldl LoadChunk s).m_chunks := by
  induction requests with
  | nil => intro s h; exact h
  | cons c rest ih => intro s h; exact ih (stampedAtLoad_LoadChunk h c)

theorem stampedAtLoad_foldl_UnloadChunk (keys : List Nat) :
    ∀ {s : WorldStreamer}, StampedAtLoad s.m_chunks →
      StampedAtLoad
        (keys.foldl (fun st key => UnloadChunk st (KeyToChunkPosition key)) s).m_chunks := by
  induction keys with
  | nil => intro s h; exact h
  | cons k rest ih => intro s h; exact ih (stampedAtLoad_UnloadChunk h _)

theorem stampedAtLoad_UpdateStreaming {s : WorldStreamer} (h : StampedAtLoad s.m_chunks) :
    StampedAtLoad (UpdateStreaming s).m_chunks := by
  unfold UpdateStreaming unloadPass loadPass
  exact stampedAtLoad_foldl_UnloadChunk _ (stampedAtLoad_foldl_LoadChunk _ h)

theorem stampedAtLoad_PredictiveLoading {s : WorldStreamer} (h : StampedAtLoad s.m_chunks) :
    StampedAtLoad (PredictiveLoading s).m_chunks := by
  unfold PredictiveLoading
  dsimp only
  split_ifs
  · exact stampedAtLoad_LoadChunk h _
  · exact h

theorem stampedAtLoad_streamingPasses {s : WorldStreamer} (h : StampedAtLoad s.m_chunks) :
    StampedAtLoad (streamingPasses s).m_chunks := by
  unfold streamingPasses
  dsimp only
  rw [m_chunks_CleanupUnusedChunks]
  apply stampedAtLoad_foldl_mapErase
  split_ifs
  · exact stampedAtLoad_PredictiveLoading (stampedAtLoad_UpdateStreaming h)
  · exact stampedAtLoad_UpdateStreaming h

theorem stampedAtLoad_Update {s : WorldStreamer} (h : StampedAtLoad s.m_chunks)
    (deltaTime : ℚ) : StampedAtLoad (Update s deltaTime).m_chunks := by
  have hs : StampedAtLoad (setTimer s (f32 (s.m_streamingUpdateTimer + deltaTime))).m_chunks := h
  unfold Update
  dsimp only
  split_ifs
  · exact h
  · rw [m_chunks_setTimer]
    exact stampedAtLoad_streamingPasses hs
  · exact hs

theorem stampedAtLoad_apply {s : WorldStreamer} (h : StampedAtLoad s.m_chunks)
    (c : Call) : StampedAtLoad (c.apply s).m_chunks := by
  cases c with
  | Initialize => exact h
  | Update deltaTime => exact stampedAtLoad_Update h deltaTime
  | Shutdown =>
    show StampedAtLoad (Shutdown s).m_chunks
    unfold Shutdown
    split_ifs
    · exact h
    · intro e he
      exact absurd he (List.not_mem_nil e)
  | SetObserverPosition position => exact h
  | SetStreamingSettings settings => exact h
  | LoadChunk chunkPosition => exact stampedAtLoad_LoadChunk h chunkPosition
  | UnloadChunk chunkPosition => exact stampedAtLoad_UnloadChunk h chunkPosition

theorem stampedAtLoad_run (calls : List Call) :
    ∀ {s : WorldStreamer}, StampedAtLoad s.m_chunks →
      StampedAtLoad (run s calls).m_chunks := by
  induction calls with
  | nil => intro s h; exact h
  | cons c rest ih => intro s h; exact ih (stampedAtLoad_apply h c)

theorem CleanupUnusedChunks_of_stampedAtLoad (s : WorldStreamer)
    (h : StampedAtLoad s.m_chunks) : CleanupUnusedChunks s = s := by
  have hnone : (s.m_chunks.filter fun e => e.2.lastAccessTime > 300) = [] := by
    apply List.filter_eq_nil_iff.mpr
    intro e he
    rw [(h e he).1]
    simp
  unfold CleanupUnusedChunks
  dsimp only
  rw [hnone]
  rfl

/-- C29: in every state reachable from a freshly constructed streamer through
`Initialize`, `Update`, `SetObserverPosition`, `SetStreamingSettings`, `LoadChunk`,
`UnloadChunk` and `Shutdown`, every resident chunk has `lastAccessTime = 0`,
`loaded = true` and `generated = true`, so `CleanupUnusedChunks` leaves the store, and
the whole state, unchanged. -/
theorem C29_reaper_never_fires (calls : List Call) :
    (∀ e ∈ (run {} calls).m_chunks,
      e.2.lastAccessTime = 0 ∧ e.2.loaded = true ∧ e.2.generated = true) ∧
    (CleanupUnusedChunks (run {} calls)).m_chunks = (run {} calls).m_chunks ∧
    CleanupUnusedChunks (run {} calls) = run {} calls := by
  have hempty : StampedAtLoad ({} : WorldStreamer).m_chunks :=
    fun e he => absurd he (List.not_mem_nil e)
  have hinv : StampedAtLoad (run {} calls).m_chunks := stampedAtLoad_run calls hempty
  have hsame := CleanupUnusedChunks_of_stampedAtLoad _ hinv
  generalize run {} calls = s at hinv hsame ⊢
  refine ⟨hinv, ?_, hsame⟩
  rw [hsame]

/-! ## The decoded key in the unload pass -/

/-- C30, at the failing input: the key 4295032833000001 of the chunk origin
(0,0,1000) decodes to (15000, 2^64 * 1000, 2^64 * 1000), and encoding that position
gives 4295032833000000, the key of (0,0,0), not the key back: the 16 bits kept for
z hold 16961, which minus the bias wraps to `2^64 - 983039`; the conversion to
`float` rounds that to `2^64`, and the conversion of `2^64` back to a 64-bit integer
gives 0.  With the chunks of (0,0,0) and (0,0,1000) resident, the observer at (0,0,0)
and `unloadRadius = 500`, the unload pass selects the key of (0,0,1000) only and
erases the entry under the key of (0,0,0): the entry it selected is still in the
store. -/
theorem C30_reencoded_key_differs :
    ChunkPositionToKey ⟨0, 0, 1000⟩ = 4295032833000001 ∧
    KeyToChunkPosition 4295032833000001
      = ⟨15000, 18446744073709551616000, 18446744073709551616000⟩ ∧
    ChunkPositionToKey (KeyToChunkPosition (ChunkPositionToKey ⟨0, 0, 1000⟩))
      = 4295032833000000 ∧
    ChunkPositionToKey (KeyToChunkPosition (ChunkPositionToKey ⟨0, 0, 1000⟩))
      ≠ ChunkPositionToKey ⟨0, 0, 1000⟩ ∧
    ChunkPositionToKey ⟨0, 0, 0⟩ = 4295032833000000 ∧
    (4295032833000001 &&& 0xFFFF = 16961 ∧
      (16961 + 2 ^ 64 - 1000000) % 2 ^ 64 = 2 ^ 64 - 983039 ∧
      f32 ((2 ^ 64 - 983039 : Nat) : ℚ) = 18446744073709551616 ∧
      castU64 (f32 (18446744073709551616000 / 1000)) = 0) ∧
    adjacentChunks.m_chunks
      = [(4295032833000000, loadedChunk ⟨0, 0, 0⟩),
         (4295032833000001, loadedChunk ⟨0, 0, 1000⟩)] ∧
    chunksToUnload adjacentChunks = [4295032833000001] ∧
    (unloadPass adjacentChunks).m_chunks
      = [(4295032833000001, loadedChunk ⟨0, 0, 1000⟩)] := by
  decide!

/-! ## The observer's own chunk -/

/-- C26 at `originResident`: the chunk of (0,0,0) is in the store with `loaded = true`,
so it is in the result of `GetLoadedChunks`. -/
theorem C26_GetLoadedChunks_witness :
    (ChunkPositionToKey ⟨0, 0, 0⟩, loadedChunk ⟨0, 0, 0⟩) ∈ originResident.m_chunks ∧
    (loadedChunk ⟨0, 0, 0⟩).loaded = true ∧
    loadedChunk ⟨0, 0, 0⟩ ∈ GetLoadedChunks originResident :=
  ⟨by decide!, rfl,
    (C26_GetLoadedChunks originResident).2.2.1
      (ChunkPositionToKey ⟨0, 0, 0⟩, loadedChunk ⟨0, 0, 0⟩) (by decide!) rfl⟩

/-- C29 after `Initialize` and `LoadChunk((0,0,0))`: the chunk of (0,0,0) is resident
and has `lastAccessTime = 0`, `loaded = true` and `generated = true`. -/
theorem C29_reaper_never_fires_witness :
    (ChunkPositionToKey ⟨0, 0, 0⟩, loadedChunk ⟨0, 0, 0⟩)
      ∈ (run {} [.Initialize, .LoadChunk ⟨0, 0, 0⟩]).m_chunks ∧
    ((loadedChunk ⟨0, 0, 0⟩).lastAccessTime = 0 ∧ (loadedChunk ⟨0, 0, 0⟩).loaded = true ∧
      (loadedChunk ⟨0, 0, 0⟩).generated = true) :=
  ⟨by decide!,
    (C29_reaper_never_fires [.Initialize, .LoadChunk ⟨0, 0, 0⟩]).1
      (ChunkPositionToKey ⟨0, 0, 0⟩, loadedChunk ⟨0, 0, 0⟩) (by decide!)⟩

end Daisy
